/-
Verification of the operation-node model of bamboo's `treeoperations` module
(`src/bamboo/treeoperations.py`): a shallow embedding of the expression-graph
node classes and the algorithms on them (value-based equality and hashing,
dependency enumeration, placeholder-index assignment in the higher-order
factories, capture-list construction, C++ snippet rendering, and the
systematic-variation wrappers), together with theorems settling the spec's
claims about them.

Modelling conventions (used throughout, noted again at each definition):
- Python object identity is modelled by an explicit `ref : Nat` field where the
  code observes it (only `LocalVariablePlaceholder`, whose late index mutation
  `idx.i = ...` is modelled as a substitution over all tree occurrences of the
  same `ref`, which is exactly what mutating the one shared object does).
- Python float values are identified by their canonical decimal literal
  (`PyValue.num "30.0"`); the code only compares them for equality, formats
  them with `str`/`repr`, and tests for infinity.
- `hash(string)` is implementation-defined in Python; it is modelled by a
  fixed deterministic function of the string, which is all the code relies on
  (a hash is always the hash of the cached `repr`).
- Tree proxies (`treeproxies`, not part of src/) are modelled by the operation
  node they wrap: proxy equality, `repr` and `adaptArg` all reduce to the
  wrapped op, per spec section 6 ("a `result` view that wraps the raw node").
- Raising an exception is modelled by `Except.error` with the message text.
-/
import Mathlib

set_option maxRecDepth 4000
set_option maxHeartbeats 1000000

/-- Python value stored in a `Const` node: either a Python `str` or a number
identified by its canonical decimal literal (see modelling conventions). -/
inductive PyValue where
  | str (s : String)
  | num (lit : String)
deriving DecidableEq, Repr

/-- The single-quote character, used by the Python `repr` of a string. -/
def pyQuote : String := String.mk [Char.ofNat 39]

/-- Python `repr` of a string (the code only reprs names without quotes or
escapes in them, so plain single-quoting is faithful on all inputs it sees). -/
def pyStrRepr (s : String) : String := pyQuote ++ s ++ pyQuote

/-- Python `repr` of a `Const` value (`{1!r}` formatting). -/
def pyValRepr : PyValue → String
  | .str s => pyStrRepr s
  | .num lit => lit

/-- Python `str` of a `Const` value. -/
def pyValStr : PyValue → String
  | .str s => s
  | .num lit => lit

/-- Python `repr` of a list of strings, e.g. a `variations` attribute. -/
def pyListRepr (xs : List String) : String :=
  "[" ++ String.intercalate ", " (xs.map pyStrRepr) ++ "]"

/-- Python `repr` of a tuple, given the reprs of its elements (one-element
tuples carry the trailing comma). -/
def pyTupleRepr : List String → String
  | [] => "()"
  | [x] => "(" ++ x ++ ",)"
  | xs => "(" ++ String.intercalate ", " xs ++ ")"

/-- Python `repr` of the optional placeholder index (`None` or an int). -/
def reprOptInt : Option Int → String
  | none => "None"
  | some v => toString v

/-- Model of Python's string hash: a fixed deterministic pure function of the
string (Python's is implementation-defined; the code only relies on a hash
being a function of the cached repr). -/
def pyHashStr (s : String) : Nat :=
  s.data.foldl (fun h c => (h * 31 + c.toNat) % 18446744073709551616) 7

/-- Python `str.capitalize`: first character upper-cased, the rest lowered. -/
def pyCapitalize (s : String) : String :=
  match s.data with
  | [] => ""
  | c :: rest => String.mk (c.toUpper :: rest.map Char.toLower)

/-- Python `str.strip(c)` for a single character: removes leading and trailing
runs of `c`. -/
def pyStripChar (c : Char) (s : String) : String :=
  String.mk (((s.data.dropWhile (· == c)).reverse.dropWhile (· == c)).reverse)

/-- Lexicographic comparison of char lists by code point, Python's string
`<=` (kernel-computable, unlike the byte-position-based core `String` order).
-/
def charListLe : List Char → List Char → Bool
  | [], _ => true
  | _ :: _, [] => false
  | a :: as_, b :: bs => if a = b then charListLe as_ bs else decide (a < b)

/-- Python string `<=` (code-point lexicographic). -/
def strLeB (a b : String) : Bool := charListLe a.data b.data

/-- Occurrence test of `pat` anywhere in `s` (Python `pat in s`). -/
def containsSub (pat : List Char) : List Char → Bool
  | [] => pat.isPrefixOf []
  | c :: rest => pat.isPrefixOf (c :: rest) || containsSub pat rest

/-- Python `pat in s`. -/
def strContains (s pat : String) : Bool := containsSub pat.data s.data

/-- Left-to-right replacement of all non-overlapping occurrences, on fuel
(one unit per consumed character; `fuel = s.length` suffices for a nonempty
pattern). -/
def replaceFuel (pat rep : List Char) : Nat → List Char → List Char
  | 0, s => s
  | _ + 1, [] => []
  | n + 1, c :: rest =>
      if pat.isPrefixOf (c :: rest) then rep ++ replaceFuel pat rep n ((c :: rest).drop pat.length)
      else c :: replaceFuel pat rep n rest

/-- Python `s.replace(pat, rep)` (for the nonempty patterns the code uses). -/
def pyReplace (s pat rep : String) : String :=
  if pat.data.isEmpty then s
  else String.mk (replaceFuel pat.data rep.data s.data.length s.data)

/-- Python `s.startswith(pre)`. -/
def pyStartsWith (s pre : String) : Bool := pre.data.isPrefixOf s.data

/-- Python `s[n:]`. -/
def pyDrop (s : String) (n : Nat) : String := String.mk (s.data.drop n)

/-- The `SizeType` constant of the source module. -/
def SizeType : String := "std::size_t"

/-- The operation-node variants of `treeoperations` that the claims are about,
as a structural tree. Each constructor's fields are the `__slots__` of the
corresponding class. `Select.rng`, `Map.rng` and `Combine.ranges` hold range
proxies in the source; a proxy is modelled by the operation node it wraps (see
module comment). `LocalVariablePlaceholder` additionally carries `ref` (the
object identity, observed by the late `idx.i = ...` mutation) and
`parentRepr` (the only observation `_eq` makes of the `_parent` back-reference
is `repr(self._parent)`, with `repr(None) = "None"`; the back-link installed
late by the `fromRngFun` factories is not re-modelled, no claim observes it).
`Reduce` is the one subclass whose `__init__` neither calls
`super().__init__()` nor declares `__slots__`: a `Reduce` object has no
`_cache` slot, so observing its repr, hash or value equality raises
`AttributeError` (the observable layer `pyReprE`/`pyHashE`/`py_eqE` models
this), and its `_repr` body additionally references the undefined
`self_prevRes`. -/
inductive TupleOp where
  | Const (typeName : String) (value : PyValue)
  | GetColumn (typeName name : String)
  | GetArrayColumn (typeName name : String) (length : TupleOp)
  | MathOp (op outType : String) (args : List TupleOp)
  | GetItem (arg : TupleOp) (typeName : String) (index : TupleOp)
  | ExtVar (typeName name : String)
  | CallMethod (name : String) (args : List TupleOp) (retType : String)
  | LocalVariablePlaceholder (typeHint : String) (ref : Nat)
      (parentRepr : Option String) (i : Option Int)
  | Select (rng predExpr idx : TupleOp)
  | Map (rng funExpr idx : TupleOp) (typeName : String)
  | Combine (ranges : List TupleOp) (candPredExpr : TupleOp) (idx : List TupleOp)
  | Reduce (rng : TupleOp) (resultType : String) (start accuExpr idx prevRes : TupleOp)

instance : Inhabited TupleOp := ⟨.Const "" (.num "0")⟩

mutual

/-- The `_repr` implementations (cached by the top-level `__repr__`; the cache
only memoises this pure value, so the repr of a node is this function).
`Reduce` has no reachable repr: `__repr__` raises `AttributeError` on the
missing `_cache` slot before `_repr` (which would itself hit the undefined
`self_prevRes`) could run, so a sentinel stands in a position the source can
never observe — the observable repr is `pyReprE`. -/
def pyRepr : TupleOp → String
  | .Const tn v => "Const(" ++ pyStrRepr tn ++ ", " ++ pyValRepr v ++ ")"
  | .GetColumn tn nm => "GetColumn(" ++ pyStrRepr tn ++ ", " ++ pyStrRepr nm ++ ")"
  | .GetArrayColumn tn nm len =>
      "GetArrayColumn(" ++ pyStrRepr tn ++ ", " ++ pyStrRepr nm ++ ", " ++ pyRepr len ++ ")"
  | .MathOp op ot args =>
      "MathOp(" ++ op ++ ", " ++ String.intercalate ", " (pyReprList args)
        ++ ", outType=" ++ pyStrRepr ot ++ ")"
  | .GetItem a tn ix =>
      "GetItem(" ++ pyRepr a ++ ", " ++ pyStrRepr tn ++ ", " ++ pyRepr ix ++ ")"
  | .ExtVar tn nm => "ExtVar(" ++ pyStrRepr tn ++ ", " ++ pyStrRepr nm ++ ")"
  | .CallMethod nm args rt =>
      "CallMethod(" ++ pyStrRepr nm ++ ", (" ++ String.intercalate ", " (pyReprList args)
        ++ "), returnType=" ++ pyStrRepr rt ++ ")"
  | .LocalVariablePlaceholder th _ _ i =>
      "LocalVariablePlaceholder(" ++ pyStrRepr th ++ ", i=" ++ reprOptInt i ++ ")"
  | .Select rng pe ix =>
      "Select(" ++ pyRepr rng ++ ", " ++ pyRepr pe ++ ", " ++ pyRepr ix ++ ")"
  | .Map rng fe ix tn =>
      "Map(" ++ pyRepr rng ++ ", " ++ pyRepr fe ++ ", " ++ pyRepr ix ++ ", " ++ pyStrRepr tn ++ ")"
  | .Combine rs pe ix =>
      "Combine(" ++ pyTupleRepr (pyReprList rs) ++ ", " ++ pyRepr pe ++ ", "
        ++ pyTupleRepr (pyReprList ix) ++ ")"
  | .Reduce _ _ _ _ _ _ => "Reduce(<unreachable>)"

def pyReprList : List TupleOp → List String
  | [] => []
  | a :: rest => pyRepr a :: pyReprList rest

end

/-- The `__hash__`: the (cached) hash of the (cached) repr. -/
def pyHash (a : TupleOp) : Nat := pyHashStr (pyRepr a)

/-- Comparison of the `_parent` back-references as `_eq` performs it:
`repr(self._parent) == repr(other._parent)`, with `repr(None) = "None"`. -/
def parentReprStr : Option String → String
  | none => "None"
  | some s => s

mutual

/-- Spec-side structural equality, following the spec's words: two nodes are
value-equal iff they are of the same runtime variant and their
operand/attribute values are equal (recursively). This is the definition the
source's `__eq__` is compared against. -/
def structEq : TupleOp → TupleOp → Bool
  | .Const tn v, .Const tn2 v2 => tn == tn2 && v == v2
  | .GetColumn tn nm, .GetColumn tn2 nm2 => tn == tn2 && nm == nm2
  | .GetArrayColumn tn nm len, .GetArrayColumn tn2 nm2 len2 =>
      tn == tn2 && nm == nm2 && structEq len len2
  | .MathOp op ot args, .MathOp op2 ot2 args2 =>
      ot == ot2 && op == op2 && structEqList args args2
  | .GetItem a tn ix, .GetItem a2 tn2 ix2 =>
      structEq a a2 && tn == tn2 && structEq ix ix2
  | .ExtVar tn nm, .ExtVar tn2 nm2 => tn == tn2 && nm == nm2
  | .CallMethod nm args rt, .CallMethod nm2 args2 rt2 =>
      nm == nm2 && rt == rt2 && structEqList args args2
  | .LocalVariablePlaceholder th _ pr i, .LocalVariablePlaceholder th2 _ pr2 i2 =>
      th == th2 && parentReprStr pr == parentReprStr pr2 && i == i2
  | .Select rng pe ix, .Select rng2 pe2 ix2 =>
      structEq rng rng2 && structEq pe pe2 && structEq ix ix2
  | .Map rng fe ix tn, .Map rng2 fe2 ix2 tn2 =>
      structEq rng rng2 && structEq fe fe2 && structEq ix ix2 && tn == tn2
  | .Combine rs pe ix, .Combine rs2 pe2 ix2 =>
      structEqList rs rs2 && structEq pe pe2 && structEqList ix ix2
  | .Reduce rng rt start accu ix pr, .Reduce rng2 rt2 start2 accu2 ix2 pr2 =>
      structEq rng rng2 && rt == rt2 && structEq start start2 && structEq accu accu2
        && structEq ix ix2 && structEq pr pr2
  | _, _ => false

def structEqList : List TupleOp → List TupleOp → Bool
  | [], [] => true
  | a :: as_, b :: bs => structEq a b && structEqList as_ bs
  | _, _ => false

end

mutual

/-- The `self.__class__ == other.__class__ and self._eq(other)`: the class check
together with the per-variant `_eq` implementations, which compare operand
nodes with `==` (i.e. the full `__eq__`): at each recursive position the
child comparison `py_eq x y = (pyHash x == pyHash y) && pyStructuralEq x y`
appears in inlined form (definitionally the same function; the inlining keeps
the recursion structural). A `False` answer for different classes models both
the explicit class check and `_eq` being reached only when it succeeds. -/
def pyStructuralEq : TupleOp → TupleOp → Bool
  | .Const tn v, .Const tn2 v2 => tn == tn2 && v == v2
  | .GetColumn tn nm, .GetColumn tn2 nm2 => tn == tn2 && nm == nm2
  | .GetArrayColumn tn nm len, .GetArrayColumn tn2 nm2 len2 =>
      tn == tn2 && nm == nm2 && ((pyHash len == pyHash len2) && pyStructuralEq len len2)
  | .MathOp op ot args, .MathOp op2 ot2 args2 =>
      ot == ot2 && op == op2 && py_eqList args args2
  | .GetItem a tn ix, .GetItem a2 tn2 ix2 =>
      ((pyHash a == pyHash a2) && pyStructuralEq a a2) && tn == tn2
        && ((pyHash ix == pyHash ix2) && pyStructuralEq ix ix2)
  | .ExtVar tn nm, .ExtVar tn2 nm2 => tn == tn2 && nm == nm2
  | .CallMethod nm args rt, .CallMethod nm2 args2 rt2 =>
      nm == nm2 && rt == rt2 && py_eqList args args2
  | .LocalVariablePlaceholder th _ pr i, .LocalVariablePlaceholder th2 _ pr2 i2 =>
      th == th2 && parentReprStr pr == parentReprStr pr2 && i == i2
  | .Select rng pe ix, .Select rng2 pe2 ix2 =>
      ((pyHash rng == pyHash rng2) && pyStructuralEq rng rng2)
        && ((pyHash pe == pyHash pe2) && pyStructuralEq pe pe2)
        && ((pyHash ix == pyHash ix2) && pyStructuralEq ix ix2)
  | .Map rng fe ix tn, .Map rng2 fe2 ix2 tn2 =>
      ((pyHash rng == pyHash rng2) && pyStructuralEq rng rng2)
        && ((pyHash fe == pyHash fe2) && pyStructuralEq fe fe2)
        && ((pyHash ix == pyHash ix2) && pyStructuralEq ix ix2) && tn == tn2
  | .Combine rs pe ix, .Combine rs2 pe2 ix2 =>
      py_eqList rs rs2 && ((pyHash pe == pyHash pe2) && pyStructuralEq pe pe2)
        && py_eqList ix ix2
  | .Reduce rng rt start accu ix pr, .Reduce rng2 rt2 start2 accu2 ix2 pr2 =>
      ((pyHash rng == pyHash rng2) && pyStructuralEq rng rng2) && rt == rt2
        && ((pyHash start == pyHash start2) && pyStructuralEq start start2)
        && ((pyHash accu == pyHash accu2) && pyStructuralEq accu accu2)
        && ((pyHash ix == pyHash ix2) && pyStructuralEq ix ix2)
        && ((pyHash pr == pyHash pr2) && pyStructuralEq pr pr2)
  | _, _ => false

/-- Python tuple equality on operand tuples: same length and elementwise
`__eq__` (each element comparison in the same inlined form). -/
def py_eqList : List TupleOp → List TupleOp → Bool
  | [], [] => true
  | a :: as_, b :: bs =>
      ((pyHash a == pyHash b) && pyStructuralEq a b) && py_eqList as_ bs
  | _, _ => false

end

/-- The `TupleOp.__eq__` for two independently constructed nodes (so the
`id(self) == id(other)` shortcut is `False`): hash comparison, then the class
check, then the variant-specific `_eq`. -/
def py_eq (a b : TupleOp) : Bool :=
  (pyHash a == pyHash b) && pyStructuralEq a b

mutual

/-- Whether a graph contains a `Reduce` node anywhere: the one condition under
which observing repr, hash or value equality raises instead of answering
(every repr/hash recursion that reaches a `Reduce` hits the missing `_cache`
slot first). -/
def containsReduce : TupleOp → Bool
  | .Const _ _ => false
  | .GetColumn _ _ => false
  | .GetArrayColumn _ _ len => containsReduce len
  | .MathOp _ _ args => containsReduceList args
  | .GetItem a _ ix => containsReduce a || containsReduce ix
  | .ExtVar _ _ => false
  | .CallMethod _ args _ => containsReduceList args
  | .LocalVariablePlaceholder _ _ _ _ => false
  | .Select rng pe ix => containsReduce rng || containsReduce pe || containsReduce ix
  | .Map rng fe ix _ => containsReduce rng || containsReduce fe || containsReduce ix
  | .Combine rs pe ix => containsReduceList rs || containsReduce pe || containsReduceList ix
  | .Reduce _ _ _ _ _ _ => true

def containsReduceList : List TupleOp → Bool
  | [] => false
  | a :: rest => containsReduce a || containsReduceList rest

end

/-- The exception text of the missing-cache access: `Reduce.__init__` never
calls `super().__init__()` and declares no `__slots__`, so `self._cache` is
unset and the `fromopcache` wrapper behind `__repr__`/`__hash__` raises this
`AttributeError` the moment it does `getattr(self._cache, key)`. -/
def attributeErrorCache : String :=
  "AttributeError: " ++ pyQuote ++ "Reduce" ++ pyQuote ++ " object has no attribute "
    ++ pyQuote ++ "_cache" ++ pyQuote

/-- Observable `repr(a)`: fails with the `AttributeError` as soon as the
recursive `_repr` formatting reaches a `Reduce` node (whose `__repr__` dies on
the missing `_cache` before its `_repr` body, with its own `self_prevRes`
defect, could even run); otherwise the pure repr value. -/
def pyReprE (a : TupleOp) : Except String String :=
  if containsReduce a then .error attributeErrorCache else .ok (pyRepr a)

/-- Observable `hash(a)`: `__hash__` hashes `repr(a)`, so it fails exactly
when the repr does. -/
def pyHashE (a : TupleOp) : Except String Nat :=
  if containsReduce a then .error attributeErrorCache else .ok (pyHash a)

/-- Observable `a == b` for two independently constructed nodes: `__eq__`
evaluates `self.__hash__()` first (raising if `a` reaches a `Reduce`), then
`hash(other)` (raising if `b` does); only a comparison of two Reduce-free
graphs returns, and then it returns the value-based answer `py_eq`. -/
def py_eqE (a b : TupleOp) : Except String Bool :=
  if containsReduce a then .error attributeErrorCache
  else if containsReduce b then .error attributeErrorCache
  else .ok (py_eq a b)

mutual

theorem structEq_refl : (a : TupleOp) → structEq a a = true
  | .Const _ _ => by simp [structEq]
  | .GetColumn _ _ => by simp [structEq]
  | .GetArrayColumn _ _ len => by simp [structEq, structEq_refl len]
  | .MathOp _ _ args => by simp [structEq, structEqList_refl args]
  | .GetItem a _ ix => by simp [structEq, structEq_refl a, structEq_refl ix]
  | .ExtVar _ _ => by simp [structEq]
  | .CallMethod _ args _ => by simp [structEq, structEqList_refl args]
  | .LocalVariablePlaceholder _ _ _ _ => by simp [structEq]
  | .Select rng pe ix => by
      simp [structEq, structEq_refl rng, structEq_refl pe, structEq_refl ix]
  | .Map rng fe ix _ => by
      simp [structEq, structEq_refl rng, structEq_refl fe, structEq_refl ix]
  | .Combine rs pe ix => by
      simp [structEq, structEq_refl pe, structEqList_refl rs, structEqList_refl ix]
  | .Reduce rng _ start accu ix pr => by
      simp [structEq, structEq_refl rng, structEq_refl start, structEq_refl accu,
        structEq_refl ix, structEq_refl pr]

theorem structEqList_refl : (l : List TupleOp) → structEqList l l = true
  | [] => by simp [structEqList]
  | a :: rest => by simp [structEqList, structEq_refl a, structEqList_refl rest]

end

mutual

theorem structEq_pyRepr : (a b : TupleOp) → structEq a b = true → pyRepr a = pyRepr b
  | .Const _ _, .Const _ _, h => by
      simp only [structEq, Bool.and_eq_true, beq_iff_eq] at h
      simp [pyRepr, h.1, h.2]
  | .GetColumn _ _, .GetColumn _ _, h => by
      simp only [structEq, Bool.and_eq_true, beq_iff_eq] at h
      simp [pyRepr, h.1, h.2]
  | .GetArrayColumn _ _ len, .GetArrayColumn _ _ len2, h => by
      simp only [structEq, Bool.and_eq_true, beq_iff_eq] at h
      simp [pyRepr, h.1.1, h.1.2, structEq_pyRepr len len2 h.2]
  | .MathOp _ _ args, .MathOp _ _ args2, h => by
      simp only [structEq, Bool.and_eq_true, beq_iff_eq] at h
      simp [pyRepr, h.1.1, h.1.2, structEqList_pyRepr args args2 h.2]
  | .GetItem a _ ix, .GetItem a2 _ ix2, h => by
      simp only [structEq, Bool.and_eq_true, beq_iff_eq] at h
      simp [pyRepr, h.1.2, structEq_pyRepr a a2 h.1.1, structEq_pyRepr ix ix2 h.2]
  | .ExtVar _ _, .ExtVar _ _, h => by
      simp only [structEq, Bool.and_eq_true, beq_iff_eq] at h
      simp [pyRepr, h.1, h.2]
  | .CallMethod _ args _, .CallMethod _ args2 _, h => by
      simp only [structEq, Bool.and_eq_true, beq_iff_eq] at h
      simp [pyRepr, h.1.1, h.1.2, structEqList_pyRepr args args2 h.2]
  | .LocalVariablePlaceholder _ _ _ _, .LocalVariablePlaceholder _ _ _ _, h => by
      simp only [structEq, Bool.and_eq_true, beq_iff_eq] at h
      simp [pyRepr, h.1.1, h.2]
  | .Select rng pe ix, .Select rng2 pe2 ix2, h => by
      simp only [structEq, Bool.and_eq_true] at h
      simp [pyRepr, structEq_pyRepr rng rng2 h.1.1, structEq_pyRepr pe pe2 h.1.2,
        structEq_pyRepr ix ix2 h.2]
  | .Map rng fe ix _, .Map rng2 fe2 ix2 _, h => by
      simp only [structEq, Bool.and_eq_true, beq_iff_eq] at h
      simp [pyRepr, structEq_pyRepr rng rng2 h.1.1.1, structEq_pyRepr fe fe2 h.1.1.2,
        structEq_pyRepr ix ix2 h.1.2, h.2]
  | .Combine rs pe ix, .Combine rs2 pe2 ix2, h => by
      simp only [structEq, Bool.and_eq_true] at h
      simp [pyRepr, structEqList_pyRepr rs rs2 h.1.1, structEq_pyRepr pe pe2 h.1.2,
        structEqList_pyRepr ix ix2 h.2]
  | .Reduce _ _ _ _ _ _, .Reduce _ _ _ _ _ _, _ => by simp [pyRepr]

theorem structEqList_pyRepr : (l1 l2 : List TupleOp) → structEqList l1 l2 = true →
    pyReprList l1 = pyReprList l2
  | [], [], _ => rfl
  | a :: as_, b :: bs, h => by
      simp only [structEqList, Bool.and_eq_true] at h
      simp [pyReprList, structEq_pyRepr a b h.1, structEqList_pyRepr as_ bs h.2]

end

/-- The hash conjunct of `__eq__` is absorbed by structural equality: equal
structures have equal reprs, hence equal hashes; unequal structures make the
conjunction false anyway. This is why a hash collision cannot produce a false
positive. -/
theorem hashAnd_structEq (x y : TupleOp) :
    ((pyHash x == pyHash y) && structEq x y) = structEq x y := by
  cases h : structEq x y
  · simp
  · simp [pyHash, structEq_pyRepr x y h]

mutual

theorem pyStructuralEq_eq_structEq : (a b : TupleOp) → pyStructuralEq a b = structEq a b
  | .Const _ _, b => by cases b <;> simp [pyStructuralEq, structEq]
  | .GetColumn _ _, b => by cases b <;> simp [pyStructuralEq, structEq]
  | .GetArrayColumn _ _ len, b => by
      cases b <;> simp [pyStructuralEq, structEq]
      case GetArrayColumn len2 =>
        rw [pyStructuralEq_eq_structEq len len2, hashAnd_structEq]
  | .MathOp _ _ args, b => by
      cases b <;> simp [pyStructuralEq, structEq]
      case MathOp args2 => rw [py_eqList_eq_structEqList args args2]
  | .GetItem a _ ix, b => by
      cases b <;> simp [pyStructuralEq, structEq]
      case GetItem a2 _ ix2 =>
        rw [pyStructuralEq_eq_structEq a a2, hashAnd_structEq,
          pyStructuralEq_eq_structEq ix ix2, hashAnd_structEq]
  | .ExtVar _ _, b => by cases b <;> simp [pyStructuralEq, structEq]
  | .CallMethod _ args _, b => by
      cases b <;> simp [pyStructuralEq, structEq]
      case CallMethod args2 _ => rw [py_eqList_eq_structEqList args args2]
  | .LocalVariablePlaceholder _ _ _ _, b => by cases b <;> simp [pyStructuralEq, structEq]
  | .Select rng pe ix, b => by
      cases b <;> simp [pyStructuralEq, structEq]
      case Select rng2 pe2 ix2 =>
        rw [pyStructuralEq_eq_structEq rng rng2, hashAnd_structEq,
          pyStructuralEq_eq_structEq pe pe2, hashAnd_structEq,
          pyStructuralEq_eq_structEq ix ix2, hashAnd_structEq]
  | .Map rng fe ix _, b => by
      cases b <;> simp [pyStructuralEq, structEq]
      case Map rng2 fe2 ix2 _ =>
        rw [pyStructuralEq_eq_structEq rng rng2, hashAnd_structEq,
          pyStructuralEq_eq_structEq fe fe2, hashAnd_structEq,
          pyStructuralEq_eq_structEq ix ix2, hashAnd_structEq]
  | .Combine rs pe ix, b => by
      cases b <;> simp [pyStructuralEq, structEq]
      case Combine rs2 pe2 ix2 =>
        rw [py_eqList_eq_structEqList rs rs2,
          pyStructuralEq_eq_structEq pe pe2, hashAnd_structEq,
          py_eqList_eq_structEqList ix ix2]
  | .Reduce rng _ start accu ix pr, b => by
      cases b <;> simp [pyStructuralEq, structEq]
      case Reduce rng2 _ start2 accu2 ix2 pr2 =>
        rw [pyStructuralEq_eq_structEq rng rng2, hashAnd_structEq,
          pyStructuralEq_eq_structEq start start2, hashAnd_structEq,
          pyStructuralEq_eq_structEq accu accu2, hashAnd_structEq,
          pyStructuralEq_eq_structEq ix ix2, hashAnd_structEq,
          pyStructuralEq_eq_structEq pr pr2, hashAnd_structEq]
termination_by a _ => (sizeOf a, 0)

theorem py_eqList_eq_structEqList : (l1 l2 : List TupleOp) →
    py_eqList l1 l2 = structEqList l1 l2
  | [], [] => by simp [py_eqList, structEqList]
  | [], _ :: _ => by simp [py_eqList, structEqList]
  | _ :: _, [] => by simp [py_eqList, structEqList]
  | a :: as_, b :: bs => by
      rw [py_eqList, structEqList, pyStructuralEq_eq_structEq a b, hashAnd_structEq,
        py_eqList_eq_structEqList as_ bs]
termination_by l1 _ => (sizeOf l1, 1)

end

/-- The `__eq__` coincides with spec-side structural equality: the identity and
hash short-circuits never change the answer. -/
theorem py_eq_eq_structEq (a b : TupleOp) : py_eq a b = structEq a b := by
  rw [py_eq, pyStructuralEq_eq_structEq a b, hashAnd_structEq]

/-- The `isinstance(nd, LocalVariablePlaceholder)`. -/
def isLVPB : TupleOp → Bool
  | .LocalVariablePlaceholder _ _ _ _ => true
  | _ => false

/-- The `isinstance(op, GetColumn)`. -/
def isGetColumnB : TupleOp → Bool
  | .GetColumn _ _ => true
  | _ => false

/-- The `isinstance(op, GetArrayColumn)`. -/
def isGetArrayColumnB : TupleOp → Bool
  | .GetArrayColumn _ _ _ => true
  | _ => false

/-- The `dp != self._i` on a yielded dependency (which can be the `None` produced
by the bare yield in `Combine.deps`): `None != op` is `True`, otherwise the
value-based `__eq__` is negated. -/
def optNe (dp : Option TupleOp) (iEx : TupleOp) : Bool :=
  match dp with
  | none => true
  | some d => !(py_eq d iEx)

/-- The `dp not in self._i` for `Combine.deps` (tuple membership via `__eq__`). -/
def optNotIn (dp : Option TupleOp) (idxs : List TupleOp) : Bool :=
  match dp with
  | none => true
  | some d => !(idxs.any (fun i => py_eq d i))

mutual

/-- The `deps` generators, with the default cache (`_getColName` always `None`,
so the guards at the top of each implementation pass). Elements are `Option`s:
every implementation yields `some arg` for a selected argument except
`Combine.deps` and `Reduce.deps`, whose `if select(arg): yield` is a bare
yield producing `None` (`none` here) instead of the argument. The source
filters through `__eq__`, which raises on any graph containing a `Reduce`
(see `py_eqE`), so the source can only complete an enumeration the total
structural comparison used here agrees with. -/
def deps (self : TupleOp) (select : TupleOp → Bool) (includeLocal : Bool) :
    List (Option TupleOp) :=
  match self with
  | .Const _ _ => []
  | .GetColumn _ _ => []
  | .ExtVar _ _ => []
  | .LocalVariablePlaceholder _ _ _ _ => []
  | .GetArrayColumn _ _ length =>
      (if select length then [some length] else []) ++ deps length select includeLocal
  | .MathOp _ _ args => depsOfArgs args select includeLocal
  | .CallMethod _ args _ => depsOfArgs args select includeLocal
  | .GetItem arg _ index =>
      (if select arg then [some arg] else []) ++ deps arg select includeLocal
        ++ (if select index then [some index] else []) ++ deps index select includeLocal
  | .Select rng predExpr idx =>
      (if select rng then [some rng] else [])
        ++ (deps rng select includeLocal).filter (fun dp => includeLocal || optNe dp idx)
        ++ (if select predExpr then [some predExpr] else [])
        ++ (deps predExpr select includeLocal).filter (fun dp => includeLocal || optNe dp idx)
  | .Map rng funExpr idx _ =>
      (if select rng then [some rng] else [])
        ++ (deps rng select includeLocal).filter (fun dp => includeLocal || optNe dp idx)
        ++ (if select funExpr then [some funExpr] else [])
        ++ (deps funExpr select includeLocal).filter (fun dp => includeLocal || optNe dp idx)
  | .Combine ranges candPredExpr idxs =>
      depsCombineArgs ranges select includeLocal idxs
        ++ (if select candPredExpr then [none] else [])
        ++ (deps candPredExpr select includeLocal).filter
            (fun dp => includeLocal || optNotIn dp idxs)
  | .Reduce rng _ start accuExpr idx prevRes =>
      (if select rng then [none] else [])
        ++ (deps rng select includeLocal).filter
            (fun dp => includeLocal || optNotIn dp [idx, prevRes])
        ++ (if select start then [none] else [])
        ++ (deps start select includeLocal).filter
            (fun dp => includeLocal || optNotIn dp [idx, prevRes])
        ++ (if select accuExpr then [none] else [])
        ++ (deps accuExpr select includeLocal).filter
            (fun dp => includeLocal || optNotIn dp [idx, prevRes])

/-- Loop body shared by `MathOp.deps`, `CallMethod.deps` and the like:
`if select(arg): yield arg` then `yield from arg.deps(...)`, per argument. -/
def depsOfArgs (args : List TupleOp) (select : TupleOp → Bool) (includeLocal : Bool) :
    List (Option TupleOp) :=
  match args with
  | [] => []
  | a :: rest =>
      (if select a then [some a] else []) ++ deps a select includeLocal
        ++ depsOfArgs rest select includeLocal

/-- Loop body of `Combine.deps` over the ranges: the bare `yield` (the bug:
`None` instead of `arg`), then the argument's deps filtered by
`includeLocal or dp not in self._i`. -/
def depsCombineArgs (args : List TupleOp) (select : TupleOp → Bool) (includeLocal : Bool)
    (idxs : List TupleOp) : List (Option TupleOp) :=
  match args with
  | [] => []
  | a :: rest =>
      (if select a then [none] else [])
        ++ (deps a select includeLocal).filter (fun dp => includeLocal || optNotIn dp idxs)
        ++ depsCombineArgs rest select includeLocal idxs

end

/-- The `collectNodes(expr, select)`: the node itself if selected, then all
(transitively reachable, selected) dependencies, locals included. -/
def collectNodes (select : TupleOp → Bool) (expr : TupleOp) : List (Option TupleOp) :=
  (if select expr then [some expr] else []) ++ deps expr select true

/-- The `nd.i if nd.i is not None else -1` for a collected placeholder. -/
def ndIdxOrNeg : TupleOp → Int
  | .LocalVariablePlaceholder _ _ _ (some v) => v
  | _ => -1

/-- The `max(chain([-1], (... for nd in nodes)))` over collected nodes; `none`
models the `AttributeError` crash on a `None` yielded by the `Combine.deps`
bug (accessing `nd.i` on `None`). -/
def maxNdIdx : List (Option TupleOp) → Option Int
  | [] => some (-1)
  | none :: _ => none
  | some nd :: rest => (maxNdIdx rest).map (fun m => max (ndIdxOrNeg nd) m)

/-- The placeholder-index scan of the `fromRngFun` factories:
`max(chain([-1], ((nd.i if nd.i is not None else -1) for nd in
collectNodes(expr, select=lambda nd: isinstance(nd, LocalVariablePlaceholder)))))`. -/
def maxLVIdx (expr : TupleOp) : Option Int :=
  maxNdIdx (collectNodes isLVPB expr)

mutual

/-- The late `idx.i = v` mutation: the placeholder is one shared object, so
setting its index updates every tree occurrence of the same `ref`. -/
def assignI (ref : Nat) (v : Int) : TupleOp → TupleOp
  | .Const tn val => .Const tn val
  | .GetColumn tn nm => .GetColumn tn nm
  | .GetArrayColumn tn nm len => .GetArrayColumn tn nm (assignI ref v len)
  | .MathOp op ot args => .MathOp op ot (assignIList ref v args)
  | .GetItem a tn ix => .GetItem (assignI ref v a) tn (assignI ref v ix)
  | .ExtVar tn nm => .ExtVar tn nm
  | .CallMethod nm args rt => .CallMethod nm (assignIList ref v args) rt
  | .LocalVariablePlaceholder th r pr i =>
      if r == ref then .LocalVariablePlaceholder th r pr (some v)
      else .LocalVariablePlaceholder th r pr i
  | .Select rng pe ix => .Select (assignI ref v rng) (assignI ref v pe) (assignI ref v ix)
  | .Map rng fe ix tn => .Map (assignI ref v rng) (assignI ref v fe) (assignI ref v ix) tn
  | .Combine rs pe ix => .Combine (assignIList ref v rs) (assignI ref v pe) (assignIList ref v ix)
  | .Reduce rng rt start accu ix pr =>
      .Reduce (assignI ref v rng) rt (assignI ref v start) (assignI ref v accu)
        (assignI ref v ix) (assignI ref v pr)

def assignIList (ref : Nat) (v : Int) : List TupleOp → List TupleOp
  | [] => []
  | a :: rest => assignI ref v a :: assignIList ref v rest

end

mutual

/-- The `_clone` implementations (`clone` only adds the identity-keyed memo
table, which preserves sharing; in a tree model each subterm is rebuilt the
same way). Each variant reconstructs itself from cloned node attributes and
copied plain attributes; `LocalVariablePlaceholder._clone` keeps `parent` and
`i` (`ref` is kept too: it models identity, which no claim observes across a
clone). -/
def clone : TupleOp → TupleOp
  | .Const tn v => .Const tn v
  | .GetColumn tn nm => .GetColumn tn nm
  | .GetArrayColumn tn nm len => .GetArrayColumn tn nm (clone len)
  | .MathOp op ot args => .MathOp op ot (cloneList args)
  | .GetItem a tn ix => .GetItem (clone a) tn (clone ix)
  | .ExtVar tn nm => .ExtVar tn nm
  | .CallMethod nm args rt => .CallMethod nm (cloneList args) rt
  | .LocalVariablePlaceholder th r pr i => .LocalVariablePlaceholder th r pr i
  | .Select rng pe ix => .Select (clone rng) (clone pe) (clone ix)
  | .Map rng fe ix tn => .Map (clone rng) (clone fe) (clone ix) tn
  | .Combine rs pe ix => .Combine (cloneList rs) (clone pe) (cloneList ix)
  | .Reduce rng rt start accu ix pr =>
      .Reduce (clone rng) rt (clone start) (clone accu) (clone ix) (clone pr)

def cloneList : List TupleOp → List TupleOp
  | [] => []
  | a :: rest => clone a :: cloneList rest

end

mutual

theorem clone_eq_self : (a : TupleOp) → clone a = a
  | .Const _ _ => by simp [clone]
  | .GetColumn _ _ => by simp [clone]
  | .GetArrayColumn _ _ len => by simp [clone, clone_eq_self len]
  | .MathOp _ _ args => by simp [clone, cloneList_eq_self args]
  | .GetItem a _ ix => by simp [clone, clone_eq_self a, clone_eq_self ix]
  | .ExtVar _ _ => by simp [clone]
  | .CallMethod _ args _ => by simp [clone, cloneList_eq_self args]
  | .LocalVariablePlaceholder _ _ _ _ => by simp [clone]
  | .Select rng pe ix => by
      simp [clone, clone_eq_self rng, clone_eq_self pe, clone_eq_self ix]
  | .Map rng fe ix _ => by
      simp [clone, clone_eq_self rng, clone_eq_self fe, clone_eq_self ix]
  | .Combine rs pe ix => by
      simp [clone, clone_eq_self pe, cloneList_eq_self rs, cloneList_eq_self ix]
  | .Reduce rng _ start accu ix pr => by
      simp [clone, clone_eq_self rng, clone_eq_self start, clone_eq_self accu,
        clone_eq_self ix, clone_eq_self pr]

theorem cloneList_eq_self : (l : List TupleOp) → cloneList l = l
  | [] => by simp [cloneList]
  | a :: rest => by simp [cloneList, clone_eq_self a, cloneList_eq_self rest]

end

/-- A range proxy as the `fromRngFun` factories consume it: `rng` is the
operation node the proxy wraps (conflating `adaptArg(rng)` and `rng._idxs.op`,
the index-range expression rendered for the runtime helpers — `treeproxies` is
not part of src/, spec section 4.3 only requires "the index range(s) of the
source collection(s)"); `base`/`itemType` model `rng._base` and its element
type, so that `rng._base[idx.result]` is a `GetItem` of `base` at the
placeholder. -/
structure Rng where
  rng : TupleOp
  base : TupleOp
  itemType : String

/-- The `rng._base[idx.result]` for a freshly allocated placeholder `idx` (index
still unassigned). `ref` is the fresh object identity of the placeholder. -/
def rngElem (r : Rng) (ref : Nat) : TupleOp :=
  .GetItem r.base r.itemType (.LocalVariablePlaceholder SizeType ref none none)

/-- The `pred(rng._base[idx.result])` of `Select.fromRngFun` (the user callback
works on proxies; modelled as a function on the underlying nodes). -/
def selectBody (r : Rng) (pred : TupleOp → TupleOp) (ref : Nat) : TupleOp :=
  pred (rngElem r ref)

/-- The `Select.fromRngFun(rng, pred)`: allocate the placeholder, build the
predicate expression, assign the placeholder index to one plus the maximum
placeholder index found in the expression (`none` models the crash of the scan
on a `None` produced by the `Combine.deps` bare-yield bug, which no intended
input reaches). The final `idx._parent = res` back-link is observed by no
claim and is not re-modelled (see `TupleOp`). -/
def selectFromRngFun (r : Rng) (pred : TupleOp → TupleOp) (ref : Nat) : Option TupleOp :=
  let predExpr := selectBody r pred ref
  (maxLVIdx predExpr).map fun m =>
    .Select r.rng (assignI ref (m + 1) predExpr)
      (.LocalVariablePlaceholder SizeType ref none (some (m + 1)))

/-- The `fun(rng._base[idx.result])` of `Map.fromRngFun`. -/
def mapBody (r : Rng) (f : TupleOp → TupleOp) (ref : Nat) : TupleOp :=
  f (rngElem r ref)

/-- The `Map.fromRngFun(rng, fun, typeName)`: same protocol as `Select.fromRngFun`
(`typeName` defaults to the value proxy's type in the source; modelled as an
explicit argument). -/
def mapFromRngFun (r : Rng) (f : TupleOp → TupleOp) (ref : Nat) (typeName : String) :
    Option TupleOp :=
  let funExpr := mapBody r f ref
  (maxLVIdx funExpr).map fun m =>
    .Map r.rng (assignI ref (m + 1) funExpr)
      (.LocalVariablePlaceholder SizeType ref none (some (m + 1))) typeName

/-- The `op.AND(*args)`: the n-ary logical-and node. Modelled from the spec
(`treefunctions` is not part of src/): builds a `MathOp("and", ...)` over the
argument nodes. -/
def opAND (args : List TupleOp) : TupleOp := .MathOp "and" "Double_t" args

/-- The default `sameIdxPred = lambda i1, i2 : i1 < i2` of `Combine.fromRngFun`
on two placeholder proxies. Modelled from the spec (proxy comparison builds
the corresponding comparison node): a `MathOp("lt", i1, i2)`. -/
def sameIdxPredDefault (i1 i2 : TupleOp) : TupleOp := .MathOp "lt" "Double_t" [i1, i2]

/-- The `itertools.combinations(l, 2)` in order. -/
def pairsOf : List α → List (α × α)
  | [] => []
  | x :: xs => xs.map (fun y => (x, y)) ++ pairsOf xs

/-- The `Combine.fromRngFun(num, ranges, candPredFun)` with the default
`sameIdxPred`: repeat a single range `num` times, allocate the placeholders
with provisional indices `-1-i`, conjoin `sameIdxPred` over every pair of
placeholders whose ranges have equal `_base` (`ra._base == rb._base` is the
value-based proxy comparison, `py_eq` on the base nodes), conjoin with the
user predicate when at least one such pair exists, then assign the placeholder
indices `maxLVIdx+1+i`. `refs` supplies the fresh object identities of the
`num` placeholders. -/
def combineFromRngFun (num : Nat) (ranges : List Rng)
    (candPredFun : List TupleOp → TupleOp) (refs : List Nat) : Option TupleOp :=
  let ranges := if ranges.length > 1 then ranges
                else List.replicate num (ranges.headD ⟨default, default, ""⟩)
  let idx := (List.range num).map fun k =>
    TupleOp.LocalVariablePlaceholder SizeType (refs.getD k 0) none (some (-1 - (k : Int)))
  let areDiffArgs := (pairsOf (idx.zip ranges)).filterMap fun p =>
    if py_eq p.1.2.base p.2.2.base then some (sameIdxPredDefault p.1.1 p.2.1) else none
  let areDiff := opAND areDiffArgs
  let candPred := candPredFun ((ranges.zip idx).map fun p => .GetItem p.1.base p.1.itemType p.2)
  let candPredExpr := if areDiffArgs.length > 0 then opAND [areDiff, candPred] else candPred
  (maxLVIdx candPredExpr).map fun m =>
    let body := (List.range num).foldl
      (fun b k => assignI (refs.getD k 0) (m + 1 + (k : Int)) b) candPredExpr
    let idxF := (List.range num).map fun k =>
      TupleOp.LocalVariablePlaceholder SizeType (refs.getD k 0) none (some (m + 1 + (k : Int)))
    TupleOp.Combine (ranges.map (·.rng)) body idxF

/-- The `candPredExpr` operand of a built `Combine` node. -/
def combineBody : TupleOp → TupleOp
  | .Combine _ body _ => body
  | _ => default

/-- The `_i` operand of a built `Select` node. -/
def selectIdx : TupleOp → TupleOp
  | .Select _ _ ix => ix
  | _ => default

/-- The `_i` operand of a built `Map` node. -/
def mapIdx : TupleOp → TupleOp
  | .Map _ _ ix _ => ix
  | _ => default

/-- The `LocalVariablePlaceholder.name`: raises `RuntimeError` while the index is
unassigned, otherwise `"i{0:d}".format(self.i)`. -/
def lvpName : Option Int → Except String String
  | none => .error "Using LocalVariablePlaceholder before giving it an index"
  | some i => .ok ("i" ++ toString i)

/-- The `mathOpFuns_cppStr` table applied to the rendered arguments: a missing
key is a `KeyError`, an arity mismatch a `TypeError`. -/
def mathOpCppStr (op : String) (xs : List String) : Except String String :=
  let j := fun (sep : String) => "( " ++ String.intercalate sep xs ++ " )"
  match op, xs with
  | "add", _ => .ok (j " + ")
  | "multiply", _ => .ok (j " * ")
  | "subtract", [a, b] => .ok ("( " ++ a ++ " - " ++ b ++ " )")
  | "divide", [a, b] => .ok ("( " ++ a ++ " / " ++ b ++ " )")
  | "floatdiv", [a, b] => .ok ("( 1.*" ++ a ++ " / " ++ b ++ " )")
  | "lt", [a, b] => .ok ("( " ++ a ++ " <  " ++ b ++ " )")
  | "le", [a, b] => .ok ("( " ++ a ++ " <= " ++ b ++ " )")
  | "eq", [a, b] => .ok ("( " ++ a ++ " == " ++ b ++ " )")
  | "ne", [a, b] => .ok ("( " ++ a ++ " != " ++ b ++ " )")
  | "gt", [a, b] => .ok ("( " ++ a ++ " >  " ++ b ++ " )")
  | "ge", [a, b] => .ok ("( " ++ a ++ " >= " ++ b ++ " )")
  | "and", _ => .ok (j " && ")
  | "or", _ => .ok (j " || ")
  | "not", [a] => .ok ("( ! " ++ a ++ " )")
  | "band", _ => .ok (j " & ")
  | "bor", _ => .ok (j " | ")
  | "bxor", _ => .ok (j " ^ ")
  | "bnot", [a] => .ok ("( ~ " ++ a ++ " )")
  | "abs", [a] => .ok ("std::abs( " ++ a ++ " )")
  | "sqrt", [a] => .ok ("std::sqrt( " ++ a ++ " )")
  | "pow", [a, b] => .ok ("std::pow( " ++ a ++ ", " ++ b ++ " )")
  | "exp", [a] => .ok ("std::exp( " ++ a ++ " )")
  | "log", [a] => .ok ("std::log( " ++ a ++ " )")
  | "log10", [a] => .ok ("std::log10( " ++ a ++ " )")
  | "max", [a, b] => .ok ("std::max( " ++ a ++ ", " ++ b ++ " )")
  | "min", [a, b] => .ok ("std::min( " ++ a ++ ", " ++ b ++ " )")
  | "switch", [t, a, b] => .ok ("( " ++ t ++ " ) ? ( " ++ a ++ " ) : ( " ++ b ++ " )")
  | "subtract", _ | "divide", _ | "floatdiv", _ | "lt", _ | "le", _ | "eq", _
  | "ne", _ | "gt", _ | "ge", _ | "not", _ | "bnot", _ | "abs", _ | "sqrt", _
  | "pow", _ | "exp", _ | "log", _ | "log10", _ | "max", _ | "min", _
  | "switch", _ => .error ("TypeError: wrong arity for " ++ op)
  | _, _ => .error ("KeyError: " ++ op)

/-- The `defCache.shouldDefine`: the production definitions cache is not part of
src/. Modelled from the spec (section 4.5): "The default (no-op)
implementation never hoists". -/
def shouldDefineB (_ : TupleOp) : Bool := false

/-- Value-based equality on yielded dependencies, as the Python `set`
deduplicates them (`None == None` included). -/
def pyOptEq (a b : Option TupleOp) : Bool :=
  match a, b with
  | none, none => true
  | some x, some y => py_eq x y
  | _, _ => false

/-- The `set(...)` of `_collectDeps`: value-based deduplication; the set is
modelled with the deterministic insertion order of a fixed run (CPython
iterates a freshly built set of the same insertions the same way; the spec
calls the result "semantically-unordered"). -/
def pyDedup (l : List (Option TupleOp)) : List (Option TupleOp) :=
  l.foldl (fun acc x => if acc.any (fun y => pyOptEq y x) then acc else acc ++ [x]) []

/-- The `_collectDeps(exprs, ownLocal)` with the default resolver: the priming
pass selects only `shouldDefine` nodes, hence nothing, and is omitted; the
collection pass selects column reads, array-column reads, `shouldDefine`
nodes (never, here) and placeholders not in `ownLocal` (membership via the
value-based `__eq__`). -/
def _collectDeps (exprs : List TupleOp) (ownLocal : List TupleOp) : List (Option TupleOp) :=
  pyDedup ((exprs.map fun expr =>
    deps expr
      (fun op => isGetColumnB op || isGetArrayColumnB op || shouldDefineB op
        || (isLVPB op && !(ownLocal.any fun ol => py_eq op ol)))
      false)).flatten

/-- Classification of one collected dependency into its (capture-expression,
parameter-declaration, call-argument-name) triple, per `_convertFunArgs`. The
`None` yielded by the `Combine.deps`/`Reduce.deps` bug matches no isinstance
check and `shouldDefine` is false, so it falls through to the
`AssertionError`; a placeholder without an index raises from `ld.name`. -/
def elemTriple : Option TupleOp → Except String (String × String × String)
  | some (.GetArrayColumn tn nm _) =>
      .ok ("&" ++ nm, "const ROOT::VecOps::RVec<" ++ tn ++ ">& " ++ nm, nm)
  | some (.GetColumn tn nm) =>
      .ok ("&" ++ nm, "const " ++ tn ++ "& " ++ nm, nm)
  | some (.LocalVariablePlaceholder th _ _ i) => do
      let nm ← lvpName i
      .ok (nm, th ++ " " ++ nm, nm)
  | _ => .error "AssertionError: Dependency with unknown type"

/-- The sort key of `_convertFunArgs`: the parameter-declaration string
(`key=(lambda elm : elm[1])`). -/
def declLe (a b : String × String × String) : Prop := strLeB a.2.1 b.2.1 = true

instance : DecidableRel declLe := fun x y => inferInstanceAs (Decidable (strLeB x.2.1 y.2.1 = true))

/-- The `capDeclCall` accumulation loop of `_convertFunArgs`: classify each
dependency in iteration order, propagating the first raised error. -/
def capDeclCallOf : List (Option TupleOp) → Except String (List (String × String × String))
  | [] => .ok []
  | d :: rest => do
      let t ← elemTriple d
      let ts ← capDeclCallOf rest
      .ok (t :: ts)

/-- The `_convertFunArgs(deps)`: classify every dependency, sort the triples by
the declaration string (Python's `sorted` is stable, as is the insertion sort
used here), and unzip (`zip(*sorted(...))`; on an empty list the call site's
tuple unpacking raises `ValueError`). -/
def _convertFunArgs (deps : List (Option TupleOp)) :
    Except String (List String × List String × List String) := do
  let capDeclCall ← capDeclCallOf deps
  let sortedL := List.insertionSort declLe capDeclCall
  match sortedL with
  | [] => .error "ValueError: not enough values to unpack"
  | _ => .ok (sortedL.map (·.1), sortedL.map (·.2.1), sortedL.map (·.2.2))

/-- The `_normFunArgs(expr, args, argNames)`: for each argument name, by
decreasing length (stable), assert it occurs in exactly one declaration,
rename it to `myArg{i}` in the declarations and in the expression. -/
def _normFunArgs (expr : String) (args : List String) (argNames : List String) :
    Except String (String × List String) := do
  let sortedNames := List.insertionSort
    (fun (a b : Nat × String) => b.2.length ≤ a.2.length) argNames.enum
  sortedNames.foldlM (fun (acc : String × List String) p => do
    let (newExpr, newArgs) := acc
    let newName := "myArg" ++ toString p.1
    if (newArgs.filter (fun ia => strContains ia p.2)).length ≠ 1 then
      .error "AssertionError: should be in one and only one argument"
    else
      .ok (pyReplace newExpr p.2 newName,
        newArgs.map fun ia => if strContains ia p.2 then pyReplace ia p.2 newName else ia))
    (expr, args)

instance : DecidableRel (fun (a b : Nat × String) => b.2.length ≤ a.2.length) :=
  fun x y => inferInstanceAs (Decidable (y.2.length ≤ x.2.length))

/-- The `defCache.symbol(decl, ..., args=...)`: registration of a hoisted
definition. Modelled from the spec (section 4.5, the production definitions
cache is not part of src/): the resolver deduplicates by content and returns
a name determined by the declaration it was given. -/
def symbolFor (decl : String) (args : String) : String :=
  "sym" ++ toString (decl.length + args.length)

/-- The `"{0} {1}".format(self._i.typeHint, self._i.name)` for a placeholder
operand (an `AttributeError` if the `_i` slot does not hold a placeholder,
which no factory-built node exhibits). -/
def lvpDecl : TupleOp → Except String String
  | .LocalVariablePlaceholder th _ _ i => do
      let nm ← lvpName i
      .ok (th ++ " " ++ nm)
  | _ => .error "AttributeError: _i is not a LocalVariablePlaceholder"

/-- The `any(isinstance(dp, LocalVariablePlaceholder) for dp in depList)`. -/
def depListHasLVP (depList : List (Option TupleOp)) : Bool :=
  depList.any fun o => match o with
    | some d => isLVPB d
    | none => false

mutual

/-- The `get_cppStr` backends with the default/no-hoist resolver (see
`shouldDefineB` and `symbolFor`): `Const` (with the infinity special case on
`str(value)`), name-rendering variants, the placeholder (its `name` property,
raising before the index is assigned), the `mathOpFuns_cppStr` table, item
access, method calls, and the higher-order operations, which collect their
free dependencies, build the capture list, emit the runtime-helper snippet
inline when the dependency list still contains placeholders, and otherwise
hoist it through the resolver. -/
def get_cppStr : TupleOp → Except String String
  | .Const tn v =>
      match v with
      | .num lit =>
          if lit == "inf" then .ok ("std::numeric_limits<" ++ tn ++ ">::max()")
          else if lit == "-inf" then .ok ("std::numeric_limits<" ++ tn ++ ">::min()")
          else .ok lit
      | .str s => .ok s
  | .GetColumn _ nm => .ok nm
  | .GetArrayColumn _ nm _ => .ok nm
  | .ExtVar _ nm => .ok nm
  | .LocalVariablePlaceholder _ _ _ i => lvpName i
  | .MathOp op _ args => do
      let xs ← get_cppStrList args
      mathOpCppStr op xs
  | .GetItem a _ ix => do
      let ra ← get_cppStr a
      let rix ← get_cppStr ix
      .ok (ra ++ "[" ++ rix ++ "]")
  | .CallMethod nm args _ => do
      let xs ← get_cppStrList args
      .ok (nm ++ "(" ++ String.intercalate ", " xs ++ ")")
  | .Select rng pe ix => do
      let depList := _collectDeps [rng, pe] [ix]
      let trip ← _convertFunArgs depList
      let idxs ← get_cppStr rng
      let iDecl ← lvpDecl ix
      let peStr ← get_cppStr pe
      let expr := "rdfhelpers::select(" ++ idxs ++ ",\n    ["
        ++ String.intercalate ", " trip.1 ++ "] ( " ++ iDecl ++ " ) \x7b return "
        ++ peStr ++ "; \x7d)"
      if depListHasLVP depList then .ok expr
      else do
        let nrm ← _normFunArgs expr trip.2.1 trip.2.2
        .ok (symbolFor nrm.1 (String.intercalate ", " nrm.2)
          ++ "(" ++ String.intercalate ", " trip.2.2 ++ ")")
  | .Map rng fe ix tn => do
      let depList := _collectDeps [rng, fe] [ix]
      let trip ← _convertFunArgs depList
      let idxs ← get_cppStr rng
      let iDecl ← lvpDecl ix
      let feStr ← get_cppStr fe
      let expr := "rdfhelpers::map<" ++ tn ++ ">(" ++ idxs ++ ",\n    ["
        ++ String.intercalate ", " trip.1 ++ "] ( " ++ iDecl ++ " ) \x7b return "
        ++ feStr ++ "; \x7d)"
      if depListHasLVP depList then .ok expr
      else
        .ok (symbolFor expr (String.intercalate ", " trip.2.1)
          ++ "(" ++ String.intercalate ", " trip.2.2 ++ ")")
  | .Combine rs pe ix => do
      let depList := _collectDeps (rs ++ [pe]) ix
      let trip ← _convertFunArgs depList
      let predIdxArgs ← ix.mapM lvpDecl
      let peStr ← get_cppStr pe
      let rangesStrs ← get_cppStrList rs
      let expr := "rdfhelpers::combine" ++ toString rs.length ++ "(\n     ["
        ++ String.intercalate ", " trip.1 ++ "] ( "
        ++ String.intercalate ", " predIdxArgs ++ " ) \x7b return " ++ peStr
        ++ "; \x7d,\n     " ++ String.intercalate ", " rangesStrs ++ ")"
      if depListHasLVP depList then .ok expr
      else
        .ok (symbolFor expr (String.intercalate ", " trip.2.1)
          ++ "(" ++ String.intercalate ", " trip.2.2 ++ ")")
  | .Reduce rng _ start accuExpr ix pr => do
      let depList := _collectDeps [rng, start, accuExpr] [ix, pr]
      let trip ← _convertFunArgs depList
      let idxs ← get_cppStr rng
      let startStr ← get_cppStr start
      let prevDecl ← lvpDecl pr
      let iDecl ← lvpDecl ix
      let accuStr ← get_cppStr accuExpr
      let expr := "rdfhelpers::reduce(" ++ idxs ++ ", " ++ startStr ++ ",\n     ["
        ++ String.intercalate ", " trip.1 ++ "] ( " ++ prevDecl ++ ", " ++ iDecl
        ++ " ) \x7b return " ++ accuStr ++ "; \x7d)"
      if depListHasLVP depList then .ok expr
      else
        .ok (symbolFor expr (String.intercalate ", " trip.2.1)
          ++ "(" ++ String.intercalate ", " trip.2.2 ++ ")")

def get_cppStrList : List TupleOp → Except String (List String)
  | [] => .ok []
  | a :: rest => do
      let x ← get_cppStr a
      let xs ← get_cppStrList rest
      .ok (x :: xs)

end

/-- Integer meaning of an index expression under an assignment of candidate
indices to the placeholders (by `ref`): only a placeholder denotes a value
(that is all the distinctness predicate of `Combine` contains). -/
def evalI (σ : Nat → Int) : TupleOp → Option Int
  | .LocalVariablePlaceholder _ ref _ _ => some (σ ref)
  | _ => none

mutual

/-- Boolean meaning of a candidate predicate under an index assignment, for
the fragment `Combine.fromRngFun` generates around the user predicate:
`MathOp("and", ...)` is the conjunction of its arguments and
`MathOp("lt", i1, i2)` the strict comparison of the indices (the C++
semantics of the rendered `&&` and `<`); anything else is left unevaluated. -/
def evalB (σ : Nat → Int) : TupleOp → Option Bool
  | .MathOp op _ args =>
      if op == "and" then (evalBList σ args).map (fun l => l.all id)
      else if op == "lt" then
        match args with
        | [a, b] => do
            let x ← evalI σ a
            let y ← evalI σ b
            pure (decide (x < y))
        | _ => none
      else none
  | _ => none

def evalBList (σ : Nat → Int) : List TupleOp → Option (List Bool)
  | [] => some []
  | a :: rest => do
      let x ← evalB σ a
      let xs ← evalBList σ rest
      pure (x :: xs)

end

theorem evalI_assignI (σ : Nat → Int) (r : Nat) (v : Int) (e : TupleOp) :
    evalI σ (assignI r v e) = evalI σ e := by
  cases e
  case LocalVariablePlaceholder =>
    simp only [assignI]
    split <;> simp [evalI]
  all_goals simp [assignI, evalI]

mutual

theorem evalB_assignI (σ : Nat → Int) (r : Nat) (v : Int) :
    (e : TupleOp) → evalB σ (assignI r v e) = evalB σ e
  | .Const _ _ => by simp [assignI, evalB]
  | .GetColumn _ _ => by simp [assignI, evalB]
  | .GetArrayColumn _ _ _ => by simp [assignI, evalB]
  | .GetItem _ _ _ => by simp [assignI, evalB]
  | .ExtVar _ _ => by simp [assignI, evalB]
  | .CallMethod _ _ _ => by simp [assignI, evalB]
  | .LocalVariablePlaceholder _ _ _ _ => by
      simp only [assignI]
      split <;> simp [evalB]
  | .Select _ _ _ => by simp [assignI, evalB]
  | .Map _ _ _ _ => by simp [assignI, evalB]
  | .Combine _ _ _ => by simp [assignI, evalB]
  | .Reduce _ _ _ _ _ _ => by simp [assignI, evalB]
  | .MathOp op ot args => by
      simp only [assignI, evalB]
      rw [evalBList_assignI σ r v args]
      rcases args with _ | ⟨a, _ | ⟨b, _ | ⟨c, rest⟩⟩⟩ <;>
        simp [assignIList, evalI_assignI]

theorem evalBList_assignI (σ : Nat → Int) (r : Nat) (v : Int) :
    (l : List TupleOp) → evalBList σ (assignIList r v l) = evalBList σ l
  | [] => by simp [assignIList, evalBList]
  | a :: rest => by
      simp [assignIList, evalBList, evalB_assignI σ r v a, evalBList_assignI σ r v rest]

end

/-- The `TupleOpCache`: the lazily populated `(hash, repr)` slots; `__bool__` is
true as soon as either is populated. -/
structure TupleOpCache where
  hash : Option Nat
  reprStr : Option String
deriving DecidableEq, Repr

/-- The `TupleOpCache.__bool__`. -/
def TupleOpCache.toBool (c : TupleOpCache) : Bool := c.hash.isSome || c.reprStr.isSome

/-- A freshly constructed (empty) cache. -/
def TupleOpCache.fresh : TupleOpCache := ⟨none, none⟩

/-- The `self.wrapped.args[-1].name` for the scale-factor wrapper: the wrapped
node is a method-call node whose trailing argument carries the variation
selector in its `name` attribute (an `ExtVar` in practice; any node with a
`name` slot reads the same way). `none` models the `AttributeError`/
`IndexError` on a wrapped node without such an argument. -/
def lastArgName : TupleOp → Option String
  | .CallMethod _ args _ =>
      match args.getLast? with
      | some (.ExtVar _ nm) => some nm
      | some (.GetColumn _ nm) => some nm
      | some (.GetArrayColumn _ nm _) => some nm
      | _ => none
  | _ => none

/-- The `self.wrapped.args[-1].name = newVariation`: in-place rewrite of the
trailing argument's `name`. -/
def setLastArgName (nv : String) : TupleOp → TupleOp
  | .CallMethod nm args rt =>
      match args.getLast? with
      | some (.ExtVar tn _) => .CallMethod nm (args.dropLast ++ [.ExtVar tn nv]) rt
      | some (.GetColumn tn _) => .CallMethod nm (args.dropLast ++ [.GetColumn tn nv]) rt
      | some (.GetArrayColumn tn _ len) =>
          .CallMethod nm (args.dropLast ++ [.GetArrayColumn tn nv len]) rt
      | _ => .CallMethod nm args rt
  | op => op

/-- The `self.wrapped.args[0].value` for the modified-collection wrapper: the
leading argument is the `Const` holding the quoted collection name. -/
def firstArgValue : TupleOp → Option PyValue
  | .CallMethod _ (.Const _ v :: _) _ => some v
  | _ => none

/-- In-place rewrite `self.wrapped.args[0].value = ...` storing the new
collection name wrapped in double quotes. -/
def setFirstArgValue (nv : PyValue) : TupleOp → TupleOp
  | .CallMethod nm (.Const tn _ :: rest) rt => .CallMethod nm (.Const tn nv :: rest) rt
  | op => op

/-- The `ScaleFactorWithSystOp` (an `OpWithSyst`, a `ForwardingOp`): its own cache
(`self._cache`), the wrapped node's cache (`self.wrapped._cache`), the
wrapped node's structural content, and the `systName`/`variations`
attributes. -/
structure ScaleFactorWithSystOp where
  cache : TupleOpCache
  wrappedCache : TupleOpCache
  wrapped : TupleOp
  systName : String
  variations : List String

/-- The `ScaleFactorWithSystOp.__init__` with the default variation list
`[systName + "up", systName + "down"]` (both caches fresh). -/
def ScaleFactorWithSystOp.make (wrapped : TupleOp) (systName : String) :
    ScaleFactorWithSystOp :=
  ⟨.fresh, .fresh, wrapped, systName, [systName ++ "up", systName ++ "down"]⟩

/-- The `OpWithSyst._repr`: `"{0}({1!r}, {2!r}, {3!r})"` with the class name. -/
def ScaleFactorWithSystOp.pyReprOf (s : ScaleFactorWithSystOp) : String :=
  "ScaleFactorWithSystOp(" ++ pyRepr s.wrapped ++ ", " ++ pyStrRepr s.systName ++ ", "
    ++ pyListRepr s.variations ++ ")"

/-- Observing the wrapper's own `repr`/`hash` (e.g. hashing it, or computing
the repr of any expression containing it): populates the wrapper's cache, and
— because `_repr` formats `repr(self.wrapped)` — the wrapped node's repr
cache as well. -/
def ScaleFactorWithSystOp.observeHash (s : ScaleFactorWithSystOp) :
    ScaleFactorWithSystOp :=
  { s with
    cache := ⟨some (pyHashStr s.pyReprOf), some s.pyReprOf⟩,
    wrappedCache := ⟨s.wrappedCache.hash, some (pyRepr s.wrapped)⟩ }

/-- Observing the hash of the node the wrapper points at (`hash(wrapped)`):
populates the wrapped node's repr and hash caches — and nothing else. -/
def ScaleFactorWithSystOp.observeWrappedHash (s : ScaleFactorWithSystOp) :
    ScaleFactorWithSystOp :=
  { s with wrappedCache := ⟨some (pyHash s.wrapped), some (pyRepr s.wrapped)⟩ }

/-- Observing the repr of the node the wrapper points at (`repr(wrapped)`,
its "rendered form"; `get_cppStr` touches no cache at all). -/
def ScaleFactorWithSystOp.observeWrappedRepr (s : ScaleFactorWithSystOp) :
    ScaleFactorWithSystOp :=
  { s with wrappedCache := ⟨s.wrappedCache.hash, some (pyRepr s.wrapped)⟩ }

/-- The `ScaleFactorWithSystOp.changeVariation(newVariation)`: the freeze check on
`self._cache`, the variation-name validation, the translation to the C++-side
name (strip the `systName` prefix, capitalize), and the conditional in-place
rewrite of the trailing variation-selector argument when it still holds
`"Nominal"`. -/
def ScaleFactorWithSystOp.changeVariation (s : ScaleFactorWithSystOp)
    (newVariation : String) : Except String ScaleFactorWithSystOp :=
  if s.cache.toBool then
    .error "Cannot change variation of an expression that is already frozen"
  else if !(s.variations.contains newVariation) then
    .error ("Invalid variation: " ++ newVariation)
  else
    let nv := pyCapitalize (if pyStartsWith newVariation s.systName then
      pyDrop newVariation s.systName.data.length else newVariation)
    match lastArgName s.wrapped with
    | some nm =>
        if nm == "Nominal" && nv != nm then
          .ok { s with wrapped := setLastArgName nv s.wrapped }
        else .ok s
    | none => .error "AttributeError: wrapped node has no trailing named argument"

/-- The `ScaleFactorWithSystOp._clone`: rebuild through `__init__` from the cloned
wrapped node (both caches fresh again). -/
def ScaleFactorWithSystOp.cloneSF (s : ScaleFactorWithSystOp) : ScaleFactorWithSystOp :=
  ⟨.fresh, .fresh, clone s.wrapped, s.systName, s.variations⟩

/-- The `OpWithSyst._eq` (after the class check): `ForwardingOp._eq` on the
wrapped nodes plus equality of `systName` and `variations`. -/
def ScaleFactorWithSystOp.valueEq (a b : ScaleFactorWithSystOp) : Bool :=
  py_eq a.wrapped b.wrapped && a.systName == b.systName && a.variations == b.variations

/-- The `ForwardingOp.get_cppStr`: delegates to the wrapped node (no caching). -/
def ScaleFactorWithSystOp.render (s : ScaleFactorWithSystOp) : Except String String :=
  get_cppStr s.wrapped

/-- The `SystModifiedCollectionOp` (the modifiedcollections `at` call wrapper):
same state as the scale-factor wrapper, with its own `changeVariation`. -/
structure SystModifiedCollectionOp where
  cache : TupleOpCache
  wrappedCache : TupleOpCache
  wrapped : TupleOp
  systName : String
  variations : List String

/-- The `SystModifiedCollectionOp.__init__(wrapped, name, variations)`. -/
def SystModifiedCollectionOp.make (wrapped : TupleOp) (name : String)
    (variations : List String) : SystModifiedCollectionOp :=
  ⟨.fresh, .fresh, wrapped, name, variations⟩

/-- The `SystModifiedCollectionOp.changeVariation(newCollection)`: freeze check,
collection-name validation, then the conditional in-place rewrite of the
leading `Const` argument when it still holds the quoted string value
`"nominal"` (the stored value carries the quotes; the comparison strips
them). -/
def SystModifiedCollectionOp.changeVariation (s : SystModifiedCollectionOp)
    (newCollection : String) : Except String SystModifiedCollectionOp :=
  if s.cache.toBool then
    .error "Cannot change variation of an expression that is already frozen"
  else if !(s.variations.contains newCollection) then
    .error ("Invalid collection: " ++ newCollection)
  else
    match firstArgValue s.wrapped with
    | some (.str v) =>
        if v == "\"nominal\"" && newCollection != pyStripChar (Char.ofNat 34) v then
          .ok { s with
            wrapped := setFirstArgValue (.str ("\"" ++ newCollection ++ "\"")) s.wrapped }
        else .ok s
    | some (.num _) => .error "AttributeError: value has no strip"
    | none => .error "AttributeError: wrapped node has no leading Const argument"

/-- Observing the wrapper's own `repr`/`hash` (as for the scale-factor
wrapper, with this class name in `_repr`). -/
def SystModifiedCollectionOp.observeHash (s : SystModifiedCollectionOp) :
    SystModifiedCollectionOp :=
  let rp := "SystModifiedCollectionOp(" ++ pyRepr s.wrapped ++ ", " ++ pyStrRepr s.systName
    ++ ", " ++ pyListRepr s.variations ++ ")"
  { s with
    cache := ⟨some (pyHashStr rp), some rp⟩,
    wrappedCache := ⟨s.wrappedCache.hash, some (pyRepr s.wrapped)⟩ }

/-- Observing the hash of the node this wrapper points at. -/
def SystModifiedCollectionOp.observeWrappedHash (s : SystModifiedCollectionOp) :
    SystModifiedCollectionOp :=
  { s with wrappedCache := ⟨some (pyHash s.wrapped), some (pyRepr s.wrapped)⟩ }

/-- Column reads and range proxies of a concrete analysis scenario: a jet
collection and a muon collection (distinct base columns), as used by the
claims below. -/
def jetsRng : Rng := ⟨.GetColumn "RVecI" "jidx", .GetColumn "RVecF" "jpt", "Float_t"⟩

/-- The muon collection proxy of the concrete scenario. -/
def muonsRng : Rng := ⟨.GetColumn "RVecI" "midx", .GetColumn "RVecF" "mpt", "Float_t"⟩

/-- A Map over the jets whose transform body contains a nested Select over the
muons (the inner predicate compares each muon to the current jet, so the inner
subgraph mentions both placeholders). -/
def nestedMapSelect : Option TupleOp :=
  mapFromRngFun jetsRng
    (fun j => (selectFromRngFun muonsRng
      (fun m => .MathOp "gt" "Double_t" [m, j]) 0).getD default)
    1 "RVecS"

/-- The built nested node. -/
def nestedMapSelectN : TupleOp := nestedMapSelect.getD default

/-- The `funExpr` operand of a built `Map` node. -/
def mapFunExpr : TupleOp → TupleOp
  | .Map _ fe _ _ => fe
  | _ => default

/-- A concrete `Reduce` node, built exactly as `Reduce.__init__` stores its
arguments: summing the items of a float column over an index range, with the
accumulator placeholder (`_prevRes`) and the index placeholder (`_i`) already
assigned their indices. -/
def reduceEx : TupleOp :=
  .Reduce (.GetColumn "ROOT::VecOps::RVec<Int_t>" "jidx") "Float_t"
    (.Const "Float_t" (.num "0.0"))
    (.MathOp "add" "Double_t"
      [.LocalVariablePlaceholder "Float_t" 11 none (some 1),
       .GetItem (.GetColumn "ROOT::VecOps::RVec<Float_t>" "jpt") "Float_t"
         (.LocalVariablePlaceholder "std::size_t" 10 none (some 0))])
    (.LocalVariablePlaceholder "std::size_t" 10 none (some 0))
    (.LocalVariablePlaceholder "Float_t" 11 none (some 1))

/-- C1: the claimed contract — equal operands give `a == b` true and equal
hashes, operand differences give false — holds on every node whose graph is
free of `Reduce` (there observing equality returns exactly structural equality
of the operands, and structurally equal nodes have equal hashes, since the
hash is a function of the repr, which the structure determines; a hash
collision cannot produce a false positive because `_eq` is a conjunct).
It fails at `Reduce`: `Reduce.__init__` calls no `super().__init__()` and
declares no `__slots__`, so the `_cache` slot is unset and both `a == b` and
`hash(a)` raise `AttributeError` instead of returning, even for two
identically constructed (structurally equal) `Reduce` nodes. -/
theorem claim_eq_hash_consistency :
    (∀ a b : TupleOp, containsReduce a = false → containsReduce b = false →
      py_eqE a b = .ok (structEq a b)
        ∧ (structEq a b = true → pyHashE a = pyHashE b))
    ∧ structEq reduceEx reduceEx = true
    ∧ py_eqE reduceEx reduceEx = .error attributeErrorCache
    ∧ pyHashE reduceEx = .error attributeErrorCache := by
  refine ⟨?_, structEq_refl reduceEx, rfl, rfl⟩
  intro a b ha hb
  refine ⟨?_, fun h => ?_⟩
  · simp [py_eqE, ha, hb, py_eq_eq_structEq]
  · simp [pyHashE, ha, hb, pyHash, structEq_pyRepr a b h]

theorem claim_eq_hash_consistency_witness :
    py_eqE (TupleOp.Const "Double_t" (.num "30.0")) (TupleOp.Const "Double_t" (.num "30.0"))
        = .ok true
      ∧ pyHashE (TupleOp.Const "Double_t" (.num "30.0"))
          = pyHashE (TupleOp.Const "Double_t" (.num "30.0"))
      ∧ py_eqE (TupleOp.Const "Double_t" (.num "30.0"))
          (TupleOp.Const "Double_t" (.num "31.0")) = .ok false := by
  have h1 := claim_eq_hash_consistency.1 (TupleOp.Const "Double_t" (.num "30.0"))
    (TupleOp.Const "Double_t" (.num "30.0")) rfl rfl
  have h2 := claim_eq_hash_consistency.1 (TupleOp.Const "Double_t" (.num "30.0"))
    (TupleOp.Const "Double_t" (.num "31.0")) rfl rfl
  refine ⟨?_, h1.2 (by decide), ?_⟩
  · rw [h1.1]; exact congrArg Except.ok (by decide)
  · rw [h2.1]; exact congrArg Except.ok (by decide)

/-- C8: rendering the greater-than comparison of a scalar column read named
`"pt"` against the constant `30.0` yields exactly `( pt >  30.0 )`, with the
two-space operator spacing of the `"gt"` entry of `mathOpFuns_cppStr`. -/
theorem claim_render_gt_const (tnCol tnConst : String) :
    get_cppStr (.MathOp "gt" "Double_t"
      [.GetColumn tnCol "pt", .Const tnConst (.num "30.0")]) = .ok "( pt >  30.0 )" := rfl

/-- C9: using a `LocalVariablePlaceholder` before its index has been assigned
(accessing `name`, and therefore rendering it) raises the immediate
`RuntimeError`; once an index `i` is assigned, `name` is `"i{i}"` and no error
is raised. -/
theorem claim_lvp_name_errors :
    lvpName none = .error "Using LocalVariablePlaceholder before giving it an index"
      ∧ (∀ i : Int, lvpName (some i) = .ok ("i" ++ toString i))
      ∧ (∀ th ref pr, get_cppStr (.LocalVariablePlaceholder th ref pr none)
          = .error "Using LocalVariablePlaceholder before giving it an index")
      ∧ (∀ th ref pr (i : Int), get_cppStr (.LocalVariablePlaceholder th ref pr (some i))
          = .ok ("i" ++ toString i)) :=
  ⟨rfl, fun _ => rfl, fun _ _ _ => rfl, fun _ _ _ _ => rfl⟩

/-- C7 (code bug): `Combine.deps` (like `Reduce.deps`) executes a bare
`yield` — `if select(arg): yield` — so a directly selected argument is
delivered as `None` instead of the argument node itself, although the `deps`
contract (and every other variant, e.g. `Select.deps` below) yields the
dependency node: here the select predicate accepts the range column read, yet
the enumeration contains only `none`, never the column node; the same root
under `Select` yields the node. -/
theorem claim_deps_yields_nodes_bug :
    isGetColumnB (.GetColumn "RVecF" "jpt") = true
      ∧ deps (.Combine [.GetColumn "RVecF" "jpt"] (.Const "Int_t" (.num "1"))
          [.LocalVariablePlaceholder "std::size_t" 0 none (some 0)]) isGetColumnB false
        = [none]
      ∧ deps (.Select (.GetColumn "RVecF" "jpt") (.Const "Int_t" (.num "1"))
          (.LocalVariablePlaceholder "std::size_t" 0 none (some 0))) isGetColumnB false
        = [some (.GetColumn "RVecF" "jpt")] := by
  refine ⟨rfl, ?_, ?_⟩ <;> rfl

/-- Every node collected by the index scan has its (assigned-or-`-1`) index
bounded by the scan's maximum. -/
theorem maxNdIdx_le : ∀ {l : List (Option TupleOp)} {m : Int}, maxNdIdx l = some m →
    ∀ o ∈ l, ∃ nd, o = some nd ∧ ndIdxOrNeg nd ≤ m
  | [], _, _, _, ho => by cases ho
  | none :: _, _, h, _, _ => by simp [maxNdIdx] at h
  | some nd :: rest, m, h, o, ho => by
      simp only [maxNdIdx, Option.map_eq_some'] at h
      obtain ⟨m', hm', hmax⟩ := h
      rcases List.mem_cons.mp ho with h1 | h2
      · exact ⟨nd, h1, by rw [← hmax]; exact le_max_left _ _⟩
      · obtain ⟨nd2, hnd2, hle⟩ := maxNdIdx_le hm' o h2
        exact ⟨nd2, hnd2, by rw [← hmax]; exact le_trans hle (le_max_right _ _)⟩

/-- C3: `Select.fromRngFun` and `Map.fromRngFun` assign the freshly allocated
placeholder the index `1 +` the maximum placeholder index occurring in the
body expression's transitive subgraph, so the new index is strictly greater
than every placeholder index in the body; in the concrete nested construction
(a Map over the jets whose transform body contains a Select over the muons)
the two placeholders get the distinct indices `0` and `1`, and the node
renders to a fixed text (rendering is a pure function of the node in this
embedding — the resolver of spec section 4.5 names a hoisted definition by
its content — so repeated rendering yields this same text). -/
theorem claim_placeholder_index_assignment :
    (∀ (r : Rng) (pred : TupleOp → TupleOp) (ref : Nat) (res : TupleOp),
      selectFromRngFun r pred ref = some res →
      ∃ m, maxLVIdx (selectBody r pred ref) = some m ∧
        selectIdx res = .LocalVariablePlaceholder SizeType ref none (some (m + 1)) ∧
        ∀ o ∈ collectNodes isLVPB (selectBody r pred ref),
          ∃ nd, o = some nd ∧ ndIdxOrNeg nd < m + 1)
    ∧ (∀ (r : Rng) (f : TupleOp → TupleOp) (ref : Nat) (tn : String) (res : TupleOp),
      mapFromRngFun r f ref tn = some res →
      ∃ m, maxLVIdx (mapBody r f ref) = some m ∧
        mapIdx res = .LocalVariablePlaceholder SizeType ref none (some (m + 1)) ∧
        ∀ o ∈ collectNodes isLVPB (mapBody r f ref),
          ∃ nd, o = some nd ∧ ndIdxOrNeg nd < m + 1)
    ∧ selectIdx (mapFunExpr nestedMapSelectN)
        = .LocalVariablePlaceholder SizeType 0 none (some 0)
    ∧ mapIdx nestedMapSelectN = .LocalVariablePlaceholder SizeType 1 none (some 1)
    ∧ get_cppStr nestedMapSelectN = .ok "sym238(jpt, mpt, midx)" := by
  refine ⟨?_, ?_, rfl, rfl, rfl⟩
  · intro r pred ref res h
    simp only [selectFromRngFun, Option.map_eq_some'] at h
    obtain ⟨m, hm, hres⟩ := h
    refine ⟨m, hm, by rw [← hres]; simp [selectIdx], ?_⟩
    intro o ho
    simp only [maxLVIdx] at hm
    obtain ⟨nd, hnd, hle⟩ := maxNdIdx_le hm o ho
    exact ⟨nd, hnd, by omega⟩
  · intro r f ref tn res h
    simp only [mapFromRngFun, Option.map_eq_some'] at h
    obtain ⟨m, hm, hres⟩ := h
    refine ⟨m, hm, by rw [← hres]; simp [mapIdx], ?_⟩
    intro o ho
    simp only [maxLVIdx] at hm
    obtain ⟨nd, hnd, hle⟩ := maxNdIdx_le hm o ho
    exact ⟨nd, hnd, by omega⟩

theorem claim_placeholder_index_assignment_witness :
    ∃ m, maxLVIdx (mapBody jetsRng
        (fun j => (selectFromRngFun muonsRng
          (fun mu => .MathOp "gt" "Double_t" [mu, j]) 0).getD default) 1) = some m
      ∧ mapIdx nestedMapSelectN = .LocalVariablePlaceholder SizeType 1 none (some (m + 1))
      ∧ ∀ o ∈ collectNodes isLVPB (mapBody jetsRng
          (fun j => (selectFromRngFun muonsRng
            (fun mu => .MathOp "gt" "Double_t" [mu, j]) 0).getD default) 1),
          ∃ nd, o = some nd ∧ ndIdxOrNeg nd < m + 1 :=
  claim_placeholder_index_assignment.2.1 jetsRng
    (fun j => (selectFromRngFun muonsRng
      (fun mu => .MathOp "gt" "Double_t" [mu, j]) 0).getD default) 1 "RVecS"
    nestedMapSelectN rfl

theorem charListLe_total : ∀ (a b : List Char),
    charListLe a b = true ∨ charListLe b a = true
  | [], _ => Or.inl rfl
  | _ :: _, [] => Or.inr rfl
  | a :: as_, b :: bs => by
      by_cases hab : a = b
      · subst hab
        simpa [charListLe] using charListLe_total as_ bs
      · simp only [charListLe, if_neg hab, if_neg (Ne.symm hab)]
        rcases lt_or_gt_of_ne hab with h | h
        · exact Or.inl (by simpa using h)
        · exact Or.inr (by simpa using h)

theorem charListLe_trans : ∀ (a b c : List Char),
    charListLe a b = true → charListLe b c = true → charListLe a c = true
  | [], _, _, _, _ => rfl
  | _ :: _, [], _, h, _ => by simp [charListLe] at h
  | _ :: _, _ :: _, [], _, h => by simp [charListLe] at h
  | a :: as_, b :: bs, c :: cs, h1, h2 => by
      by_cases hab : a = b <;> by_cases hbc : b = c
      · subst hab; subst hbc
        simp only [charListLe, if_pos rfl] at h1 h2 ⊢
        exact charListLe_trans as_ bs cs h1 h2
      · subst hab
        simp only [charListLe, if_pos rfl, if_neg hbc] at h1 h2 ⊢
        exact h2
      · subst hbc
        simp only [charListLe, if_neg hab] at h1 ⊢
        exact h1
      · simp only [charListLe, if_neg hab, if_neg hbc, decide_eq_true_eq] at h1 h2
        have hac : a < c := lt_trans h1 h2
        simp [charListLe, if_neg (ne_of_lt hac), hac]

theorem charListLe_antisymm : ∀ (a b : List Char),
    charListLe a b = true → charListLe b a = true → a = b
  | [], [], _, _ => rfl
  | [], _ :: _, _, h => by simp [charListLe] at h
  | _ :: _, [], h, _ => by simp [charListLe] at h
  | a :: as_, b :: bs, h1, h2 => by
      by_cases hab : a = b
      · subst hab
        simp only [charListLe, if_pos rfl] at h1 h2
        rw [charListLe_antisymm as_ bs h1 h2]
      · simp only [charListLe, if_neg hab, if_neg (Ne.symm hab), decide_eq_true_eq] at h1 h2
        exact absurd h2 (lt_asymm h1)

theorem strLeB_antisymm (a b : String) (h1 : strLeB a b = true) (h2 : strLeB b a = true) :
    a = b := by
  cases a; cases b
  simp only [strLeB] at h1 h2
  exact congrArg String.mk (charListLe_antisymm _ _ h1 h2)

instance : IsTotal (String × String × String) declLe :=
  ⟨fun a b => charListLe_total a.2.1.data b.2.1.data⟩

instance : IsTrans (String × String × String) declLe :=
  ⟨fun a b c => charListLe_trans a.2.1.data b.2.1.data c.2.1.data⟩

/-- A permutation of the dependency set classifies to a permutation of the
same triples (each dependency is classified independently). -/
theorem capDeclCallOf_perm : ∀ {l1 l2 : List (Option TupleOp)}
    {t1 : List (String × String × String)}, l1.Perm l2 → capDeclCallOf l1 = .ok t1 →
    ∃ t2, capDeclCallOf l2 = .ok t2 ∧ t2.Perm t1 := by
  intro l1 l2 t1 hp
  induction hp generalizing t1 with
  | nil => exact fun h => ⟨t1, h, .refl _⟩
  | @cons x la lb hp ih =>
      intro h
      simp only [capDeclCallOf] at h ⊢
      cases hx : elemTriple x with
      | error e => rw [hx] at h; simp [Bind.bind, Except.bind] at h
      | ok y =>
          rw [hx] at h
          cases hr : capDeclCallOf la with
          | error e => rw [hr] at h; simp [Bind.bind, Except.bind] at h
          | ok ts =>
              rw [hr] at h
              simp only [Bind.bind, Except.bind, pure, Except.pure, Except.ok.injEq] at h
              obtain ⟨ts2, hts2, hpm⟩ := ih hr
              rw [hts2]
              simp only [Bind.bind, Except.bind, pure, Except.pure, Except.ok.injEq]
              exact ⟨y :: ts2, rfl, h ▸ hpm.cons y⟩
  | swap x y l =>
      intro h
      simp only [capDeclCallOf] at h ⊢
      cases hy : elemTriple y with
      | error e => rw [hy] at h; simp [Bind.bind, Except.bind] at h
      | ok b =>
          rw [hy] at h
          cases hx : elemTriple x with
          | error e => rw [hx] at h; simp [Bind.bind, Except.bind] at h
          | ok a =>
              rw [hx] at h
              cases hl : capDeclCallOf l with
              | error e => rw [hl] at h; simp [Bind.bind, Except.bind] at h
              | ok ts =>
                  rw [hl] at h
                  simp only [Bind.bind, Except.bind, pure, Except.pure,
                    Except.ok.injEq] at h
                  refine ⟨a :: b :: ts, by
                    simp [hx, hy, hl, Bind.bind, Except.bind, pure, Except.pure], ?_⟩
                  rw [← h]
                  exact List.Perm.swap b a ts
  | trans hp1 hp2 ih1 ih2 =>
      intro h
      obtain ⟨t2, h2, hp12⟩ := ih1 h
      obtain ⟨t3, h3, hp23⟩ := ih2 h2
      exact ⟨t3, h3, hp23.trans hp12⟩

/-- Two sorted lists that are permutations of each other and whose sort keys
are pairwise distinct are equal (with distinct keys, stability cannot be
observed, so any correct sort of the same multiset produces this one list). -/
theorem sorted_key_nodup_unique {α : Type} (key : α → String) :
    ∀ {l1 l2 : List α}, l1.Perm l2 →
      l1.Sorted (fun a b => strLeB (key a) (key b) = true) →
      l2.Sorted (fun a b => strLeB (key a) (key b) = true) →
      (l1.map key).Nodup → l1 = l2
  | [], l2, hp, _, _, _ => hp.nil_eq
  | a :: t1, l2, hp, hs1, hs2, hnd => by
      cases l2 with
      | nil => exact hp.symm.nil_eq.symm
      | cons b t2 =>
        by_cases hab : a = b
        · subst hab
          have ht := sorted_key_nodup_unique key hp.cons_inv hs1.of_cons hs2.of_cons
            (by simpa using (List.nodup_cons.mp (by simpa using hnd)).2)
          rw [ht]
        · have ha2 : a ∈ b :: t2 := hp.subset (List.mem_cons_self a t1)
          have hb1 : b ∈ a :: t1 := hp.symm.subset (List.mem_cons_self b t2)
          have ha2' : a ∈ t2 := by
            rcases List.mem_cons.mp ha2 with h | h
            · exact absurd h hab
            · exact h
          have hb1' : b ∈ t1 := by
            rcases List.mem_cons.mp hb1 with h | h
            · exact absurd h.symm hab
            · exact h
          have h1 : strLeB (key a) (key b) = true := (List.sorted_cons.mp hs1).1 b hb1'
          have h2 : strLeB (key b) (key a) = true := (List.sorted_cons.mp hs2).1 a ha2'
          have hk : key a = key b := strLeB_antisymm _ _ h1 h2
          have hnotin : key a ∉ t1.map key := (List.nodup_cons.mp (by simpa using hnd)).1
          exact absurd (hk ▸ List.mem_map_of_mem key hb1') hnotin

/-- C4: `_convertFunArgs` returns its (capture, parameter-declaration,
call-argument) triples sorted by the declaration string, so any two
traversal orders of the same collected dependency set (the set is unordered:
any permutation) yield the identical capture, declaration and call lists —
the generated function signature is deterministic. (The declaration strings
of a deduplicated dependency set are pairwise distinct, stated as the
`Nodup` hypothesis.) -/
theorem claim_convertFunArgs_deterministic (l1 l2 : List (Option TupleOp))
    (out : List String × List String × List String)
    (hp : l1.Perm l2) (h1 : _convertFunArgs l1 = .ok out) (hnd : out.2.1.Nodup) :
    _convertFunArgs l2 = .ok out := by
  simp only [_convertFunArgs] at h1 ⊢
  cases hc1 : capDeclCallOf l1 with
  | error e => rw [hc1] at h1; simp [Bind.bind, Except.bind] at h1
  | ok t1 =>
      rw [hc1] at h1
      obtain ⟨t2, hc2, hperm⟩ := capDeclCallOf_perm hp hc1
      rw [hc2]
      simp only [Bind.bind, Except.bind] at h1 ⊢
      have hperm2 : (List.insertionSort declLe t2).Perm (List.insertionSort declLe t1) :=
        ((t2.perm_insertionSort declLe).trans hperm).trans
          (t1.perm_insertionSort declLe).symm
      have hs : List.insertionSort declLe t2 = List.insertionSort declLe t1 := by
        refine sorted_key_nodup_unique (fun t => t.2.1) hperm2 ?_ ?_ ?_
        · exact List.sorted_insertionSort declLe t2
        · exact List.sorted_insertionSort declLe t1
        cases hs1 : List.insertionSort declLe t1 with
        | nil => rw [hs1] at h1; simp at h1
        | cons x xs =>
            rw [hs1] at h1
            simp only [Except.ok.injEq] at h1
            have hout : out.2.1 = (x :: xs).map (·.2.1) := by rw [← h1]
            refine ((hperm2.map (fun t => t.2.1)).nodup_iff).mpr ?_
            rw [hs1]
            simpa [hout] using hnd
      rw [hs]
      exact h1

theorem claim_convertFunArgs_deterministic_witness :
    _convertFunArgs [some (.GetArrayColumn "Float_t" "Jet_pt" (.GetColumn "UInt_t" "nJet")),
        some (.GetColumn "Float_t" "met")]
      = .ok (["&met", "&Jet_pt"],
          ["const Float_t& met", "const ROOT::VecOps::RVec<Float_t>& Jet_pt"],
          ["met", "Jet_pt"]) :=
  claim_convertFunArgs_deterministic
    [some (.GetColumn "Float_t" "met"),
     some (.GetArrayColumn "Float_t" "Jet_pt" (.GetColumn "UInt_t" "nJet"))]
    [some (.GetArrayColumn "Float_t" "Jet_pt" (.GetColumn "UInt_t" "nJet")),
     some (.GetColumn "Float_t" "met")]
    (["&met", "&Jet_pt"],
      ["const Float_t& met", "const ROOT::VecOps::RVec<Float_t>& Jet_pt"],
      ["met", "Jet_pt"])
    (List.Perm.swap _ _ _) (by rfl) (by decide)

/-- The element expressions handed to the user candidate predicate by
`Combine.fromRngFun 2 [r1, r2] ...` (each range's base indexed by its
provisional placeholder). -/
def combine2Elems (r1 r2 : Rng) (ref1 ref2 : Nat) : List TupleOp :=
  [.GetItem r1.base r1.itemType (.LocalVariablePlaceholder SizeType ref1 none (some (-1))),
   .GetItem r2.base r2.itemType (.LocalVariablePlaceholder SizeType ref2 none (some (-2)))]

theorem combine2_eq (r1 r2 : Rng) (predF : List TupleOp → TupleOp) (ref1 ref2 : Nat) :
    combineFromRngFun 2 [r1, r2] predF [ref1, ref2] =
      (let candPred := predF (combine2Elems r1 r2 ref1 ref2)
       let candPredExpr :=
         if py_eq r1.base r2.base = true then
           opAND [opAND [sameIdxPredDefault
             (.LocalVariablePlaceholder SizeType ref1 none (some (-1)))
             (.LocalVariablePlaceholder SizeType ref2 none (some (-2)))], candPred]
         else candPred
       (maxLVIdx candPredExpr).map fun m =>
         TupleOp.Combine [r1.rng, r2.rng]
           (assignI ref2 (m + 2) (assignI ref1 (m + 1) candPredExpr))
           [.LocalVariablePlaceholder SizeType ref1 none (some (m + 1)),
            .LocalVariablePlaceholder SizeType ref2 none (some (m + 2))]) := by
  simp only [combineFromRngFun, combine2Elems]
  norm_num [show List.range 2 = [0, 1] from rfl, pairsOf, List.getD]
  cases hb : py_eq r1.base r2.base <;> simp [hb] <;>
    · congr 1
      funext m
      have h2 : m + 1 + 1 = m + 2 := by ring
      rw [h2]

/-- C5: `Combine.fromRngFun` (two ranges, default `sameIdxPred`) conjoins the
strictly-increasing-index predicate with the user predicate exactly when the
two ranges share the same underlying collection (`_base` compares equal):
the built candidate predicate is the conjunction of `i1 < i2` with the user
predicate, so under any index assignment it can only evaluate to true when
the first placeholder's index is strictly below the second's (pairs with
equal or decreasing indices are rejected); for ranges over distinct
collections the built predicate is the user predicate itself, with no
index-ordering constraint added. -/
theorem claim_combine_distinctness :
    (∀ (r1 r2 : Rng) (predF : List TupleOp → TupleOp) (ref1 ref2 : Nat) (res : TupleOp),
      py_eq r1.base r2.base = true →
      combineFromRngFun 2 [r1, r2] predF [ref1, ref2] = some res →
      (∃ m, maxLVIdx (opAND [opAND [sameIdxPredDefault
            (.LocalVariablePlaceholder SizeType ref1 none (some (-1)))
            (.LocalVariablePlaceholder SizeType ref2 none (some (-2)))],
            predF (combine2Elems r1 r2 ref1 ref2)]) = some m ∧
        combineBody res = assignI ref2 (m + 2) (assignI ref1 (m + 1)
          (opAND [opAND [sameIdxPredDefault
            (.LocalVariablePlaceholder SizeType ref1 none (some (-1)))
            (.LocalVariablePlaceholder SizeType ref2 none (some (-2)))],
            predF (combine2Elems r1 r2 ref1 ref2)])))
      ∧ (∀ σ : Nat → Int, evalB σ (combineBody res) = some true → σ ref1 < σ ref2))
    ∧ (∀ (r1 r2 : Rng) (predF : List TupleOp → TupleOp) (ref1 ref2 : Nat) (res : TupleOp),
      py_eq r1.base r2.base = false →
      combineFromRngFun 2 [r1, r2] predF [ref1, ref2] = some res →
      ∃ m, maxLVIdx (predF (combine2Elems r1 r2 ref1 ref2)) = some m ∧
        combineBody res = assignI ref2 (m + 2) (assignI ref1 (m + 1)
          (predF (combine2Elems r1 r2 ref1 ref2)))) := by
  constructor
  · intro r1 r2 predF ref1 ref2 res hb hres
    rw [combine2_eq] at hres
    simp only [hb, if_true] at hres
    simp only [Option.map_eq_some'] at hres
    obtain ⟨m, hm, hres⟩ := hres
    have hbody : combineBody res = assignI ref2 (m + 2) (assignI ref1 (m + 1)
        (opAND [opAND [sameIdxPredDefault
          (.LocalVariablePlaceholder SizeType ref1 none (some (-1)))
          (.LocalVariablePlaceholder SizeType ref2 none (some (-2)))],
          predF (combine2Elems r1 r2 ref1 ref2)])) := by
      rw [← hres]; simp [combineBody]
    refine ⟨⟨m, hm, hbody⟩, ?_⟩
    intro σ hEv
    rw [hbody, evalB_assignI, evalB_assignI] at hEv
    simp only [opAND, sameIdxPredDefault, evalB, evalBList, evalI] at hEv
    cases hcp : evalB σ (predF (combine2Elems r1 r2 ref1 ref2)) with
    | none => rw [hcp] at hEv; simp [Bind.bind, Option.bind] at hEv
    | some b =>
        rw [hcp] at hEv
        simp [Bind.bind, Option.bind, pure, List.all] at hEv
        exact hEv.1
  · intro r1 r2 predF ref1 ref2 res hb hres
    rw [combine2_eq] at hres
    simp only [hb, Bool.false_eq_true, if_false] at hres
    simp only [Option.map_eq_some'] at hres
    obtain ⟨m, hm, hres⟩ := hres
    exact ⟨m, hm, by rw [← hres]; simp [combineBody]⟩

/-- The concrete `combine(2, [jets, jets], pred)` of the scenario. -/
def combineJetsJets : TupleOp :=
  (combineFromRngFun 2 [jetsRng, jetsRng] (fun _ => opAND []) [0, 1]).getD default

/-- The concrete `combine(2, [jets, muons], pred)` of the scenario. -/
def combineJetsMuons : TupleOp :=
  (combineFromRngFun 2 [jetsRng, muonsRng] (fun _ => opAND []) [0, 1]).getD default

theorem claim_combine_distinctness_witness :
    ((fun n => (n : Int)) 0 < (fun n => (n : Int)) 1)
      ∧ ∃ m, maxLVIdx ((fun _ => opAND []) (combine2Elems jetsRng muonsRng 0 1)) = some m
          ∧ combineBody combineJetsMuons = assignI 1 (m + 2) (assignI 0 (m + 1)
              ((fun _ => opAND []) (combine2Elems jetsRng muonsRng 0 1))) :=
  ⟨(claim_combine_distinctness.1 jetsRng jetsRng (fun _ => opAND []) 0 1
      combineJetsJets (by decide) rfl).2 (fun n => (n : Int)) (by decide),
   claim_combine_distinctness.2 jetsRng muonsRng (fun _ => opAND []) 0 1
      combineJetsMuons (by decide) rfl⟩

/-- The wrapped scale-factor call of the concrete scenario: an
`ILeptonScaleFactor::get`-style call whose trailing argument is the
`Nominal` variation selector. -/
def sfWrapped : TupleOp := .CallMethod "elSF.get"
  [.GetColumn "Float_t" "pt", .GetColumn "Float_t" "eta", .ExtVar "Systematic" "Nominal"]
  "double"

/-- A freshly built scale-factor wrapper around `sfWrapped`. -/
def sfExample : ScaleFactorWithSystOp := .make sfWrapped "elIDSF"

/-- The wrapped modifiedcollections `at` call of the concrete scenario. -/
def smWrapped : TupleOp := .CallMethod "modColl.at"
  [.Const "std::string" (.str "\"nominal\"")] "Coll"

/-- A freshly built modified-collection wrapper around `smWrapped`. -/
def smExample : SystModifiedCollectionOp := .make smWrapped "jets"
  ["nominal", "jesup", "jesdown"]

/-- C2 counterexample: observing the rendered form (repr) or hash of the node
a variation wrapper points at populates only that node's cache, not the
wrapper's own `_cache` that `changeVariation` checks — so the subsequent
`changeVariation` call does NOT raise the "already frozen" error (it
succeeds), for both variation-capable variants, contradicting the claim. -/
theorem claim_freeze_counterexample :
    (sfExample.observeWrappedHash).wrappedCache.toBool = true
      ∧ ((sfExample.observeWrappedHash).changeVariation "elIDSFup").isOk = true
      ∧ ((sfExample.observeWrappedRepr).changeVariation "elIDSFup").isOk = true
      ∧ (smExample.observeWrappedHash).wrappedCache.toBool = true
      ∧ ((smExample.observeWrappedHash).changeVariation "jesup").isOk = true :=
  ⟨rfl, rfl, rfl, rfl, rfl⟩

/-- C2 (amended): the freeze guard is the wrapper's own cache. Once the
wrapper's own repr or hash has been observed (which happens whenever any
enclosing expression is hashed or repr'd), `changeVariation` raises the hard
error "Cannot change variation of an expression that is already frozen";
while the wrapper's own cache is still empty, `changeVariation` with a
declared variation name succeeds — for both variation-capable variants. -/
theorem claim_freeze_amended :
    (∀ (s : ScaleFactorWithSystOp) (v : String), s.cache.toBool = true →
      s.changeVariation v
        = .error "Cannot change variation of an expression that is already frozen")
    ∧ (∀ (s : ScaleFactorWithSystOp) (v : String),
      (s.observeHash).changeVariation v
        = .error "Cannot change variation of an expression that is already frozen")
    ∧ (∀ (s : ScaleFactorWithSystOp) (v nm : String), s.cache.toBool = false →
      v ∈ s.variations → lastArgName s.wrapped = some nm →
      (s.changeVariation v).isOk = true)
    ∧ (∀ (s : SystModifiedCollectionOp) (v : String), s.cache.toBool = true →
      s.changeVariation v
        = .error "Cannot change variation of an expression that is already frozen")
    ∧ (∀ (s : SystModifiedCollectionOp) (v : String),
      (s.observeHash).changeVariation v
        = .error "Cannot change variation of an expression that is already frozen")
    ∧ (∀ (s : SystModifiedCollectionOp) (v v0 : String), s.cache.toBool = false →
      v ∈ s.variations → firstArgValue s.wrapped = some (.str v0) →
      (s.changeVariation v).isOk = true) := by
  refine ⟨?_, ?_, ?_, ?_, ?_, ?_⟩
  · intro s v h
    simp [ScaleFactorWithSystOp.changeVariation, h]
  · intro s v
    simp [ScaleFactorWithSystOp.changeVariation, ScaleFactorWithSystOp.observeHash,
      TupleOpCache.toBool]
  · intro s v nm hc hv hln
    have hcv : s.variations.contains v = true := List.elem_eq_true_of_mem hv
    simp only [ScaleFactorWithSystOp.changeVariation, hc, Bool.false_eq_true, if_false,
      hln]
    rw [if_neg (by simp [hcv, hv])]
    split <;> split <;> rfl
  · intro s v h
    simp [SystModifiedCollectionOp.changeVariation, h]
  · intro s v
    simp [SystModifiedCollectionOp.changeVariation, SystModifiedCollectionOp.observeHash,
      TupleOpCache.toBool]
  · intro s v v0 hc hv hfv
    have hcv : s.variations.contains v = true := List.elem_eq_true_of_mem hv
    simp only [SystModifiedCollectionOp.changeVariation, hc, Bool.false_eq_true, if_false,
      hfv]
    rw [if_neg (by simp [hcv, hv])]
    split <;> rfl

theorem claim_freeze_amended_witness :
    (sfExample.observeHash).changeVariation "elIDSFup"
        = .error "Cannot change variation of an expression that is already frozen"
      ∧ (sfExample.changeVariation "elIDSFup").isOk = true
      ∧ (smExample.changeVariation "jesup").isOk = true :=
  ⟨claim_freeze_amended.2.1 sfExample "elIDSFup",
   claim_freeze_amended.2.2.1 sfExample "elIDSFup" "Nominal" rfl (by decide) rfl,
   claim_freeze_amended.2.2.2.2.2 smExample "jesup" "\"nominal\"" rfl (by decide) rfl⟩

/-- C6: cloning. `clone(a)` rebuilds the same structure, and on every graph
free of `Reduce` the clone observably compares equal to the original under
`__eq__`; a cloned variation wrapper has both its own and its wrapped node's
caches empty (unfrozen) and, when its wrapped graph is `Reduce`-free, is
value-equal to the original; concretely, a frozen wrapper refuses
`changeVariation` while its clone accepts it, and after mutating the clone the
original still renders the nominal text while the clone renders the varied
text (rendering is a pure function of the node — the deep clone shares no
state with the original, so mutating the clone cannot change the original's
repr or `get_cppStr` output). The claim fails at `Reduce`: `_clone` rebuilds
a structurally identical node, but `clone(a) == a` then raises
`AttributeError` on the missing `_cache` slot instead of returning `True`
(and the rebuilt node, like the original, has no cache slot at all). -/
theorem claim_clone_independence :
    (∀ a : TupleOp, containsReduce a = false → py_eqE (clone a) a = .ok true)
    ∧ (∀ s : ScaleFactorWithSystOp, s.cloneSF.cache = .fresh
        ∧ s.cloneSF.wrappedCache = .fresh)
    ∧ (∀ s : ScaleFactorWithSystOp, containsReduce s.wrapped = false →
        ScaleFactorWithSystOp.valueEq s.cloneSF s = true)
    ∧ (sfExample.observeHash).changeVariation "elIDSFup"
        = .error "Cannot change variation of an expression that is already frozen"
    ∧ ((sfExample.observeHash).cloneSF.changeVariation "elIDSFup").isOk = true
    ∧ ScaleFactorWithSystOp.render (sfExample.observeHash) = .ok "elSF.get(pt, eta, Nominal)"
    ∧ ((sfExample.observeHash).cloneSF.changeVariation "elIDSFup").toOption.map
        ScaleFactorWithSystOp.render = some (.ok "elSF.get(pt, eta, Up)")
    ∧ clone reduceEx = reduceEx
    ∧ py_eqE (clone reduceEx) reduceEx = .error attributeErrorCache := by
  refine ⟨?_, fun s => ⟨rfl, rfl⟩, ?_, rfl, rfl, rfl, rfl, clone_eq_self reduceEx, rfl⟩
  · intro a ha
    rw [clone_eq_self]
    simp [py_eqE, ha, py_eq_eq_structEq, structEq_refl]
  · intro s _
    simp only [ScaleFactorWithSystOp.valueEq, ScaleFactorWithSystOp.cloneSF,
      clone_eq_self, py_eq_eq_structEq]
    simp [structEq_refl]

theorem claim_clone_independence_witness :
    py_eqE (clone sfWrapped) sfWrapped = .ok true
      ∧ ScaleFactorWithSystOp.valueEq sfExample.cloneSF sfExample = true :=
  ⟨claim_clone_independence.1 sfWrapped rfl,
   claim_clone_independence.2.2.1 sfExample rfl⟩

/-- C10: a successful `changeVariation` rewrites the wrapped node's variation
selector only when that selector still holds the nominal value (`"Nominal"`
for the scale-factor wrapper, the quoted string `"nominal"` for the
modified-collection wrapper); if the wrapper has already been switched away from nominal, a
successful call returns with the wrapper — in particular the wrapped node —
completely unchanged. -/
theorem claim_changeVariation_frame :
    (∀ (s : ScaleFactorWithSystOp) (v : String) (s' : ScaleFactorWithSystOp),
      s.changeVariation v = .ok s' → lastArgName s.wrapped ≠ some "Nominal" → s' = s)
    ∧ (∀ (s : ScaleFactorWithSystOp) (v : String) (s' : ScaleFactorWithSystOp),
      s.changeVariation v = .ok s' → s' ≠ s → lastArgName s.wrapped = some "Nominal")
    ∧ (∀ (s : SystModifiedCollectionOp) (v : String) (s' : SystModifiedCollectionOp),
      s.changeVariation v = .ok s' →
      firstArgValue s.wrapped ≠ some (.str "\"nominal\"") → s' = s)
    ∧ (∀ (s : SystModifiedCollectionOp) (v : String) (s' : SystModifiedCollectionOp),
      s.changeVariation v = .ok s' → s' ≠ s →
      firstArgValue s.wrapped = some (.str "\"nominal\"")) := by
  refine ⟨?_, ?_, ?_, ?_⟩
  · intro s v s' h hnom
    simp only [ScaleFactorWithSystOp.changeVariation] at h
    split at h
    · exact Except.noConfusion h
    split at h
    · exact Except.noConfusion h
    cases hln : lastArgName s.wrapped with
    | none => rw [hln] at h; exact Except.noConfusion h
    | some nm =>
        simp only [hln] at h
        split at h
        all_goals
          split at h
          · rename_i hcond
            simp only [Bool.and_eq_true, beq_iff_eq] at hcond
            exact absurd (by rw [hln, hcond.1]) hnom
          · simp only [Except.ok.injEq] at h
            exact h.symm
  · intro s v s' h hne
    simp only [ScaleFactorWithSystOp.changeVariation] at h
    split at h
    · exact Except.noConfusion h
    split at h
    · exact Except.noConfusion h
    cases hln : lastArgName s.wrapped with
    | none => rw [hln] at h; exact Except.noConfusion h
    | some nm =>
        simp only [hln] at h
        split at h
        all_goals
          split at h
          · rename_i hcond
            simp only [Bool.and_eq_true, beq_iff_eq] at hcond
            rw [hcond.1]
          · simp only [Except.ok.injEq] at h
            exact absurd h.symm hne
  · intro s v s' h hnom
    simp only [SystModifiedCollectionOp.changeVariation] at h
    split at h
    · exact Except.noConfusion h
    split at h
    · exact Except.noConfusion h
    cases hfv : firstArgValue s.wrapped with
    | none => rw [hfv] at h; exact Except.noConfusion h
    | some pv =>
        cases pv with
        | num lit => rw [hfv] at h; exact Except.noConfusion h
        | str v0 =>
            simp only [hfv] at h
            split at h
            · rename_i hcond
              simp only [Bool.and_eq_true, beq_iff_eq] at hcond
              exact absurd (by rw [hfv, hcond.1]) hnom
            · simp only [Except.ok.injEq] at h
              exact h.symm
  · intro s v s' h hne
    simp only [SystModifiedCollectionOp.changeVariation] at h
    split at h
    · exact Except.noConfusion h
    split at h
    · exact Except.noConfusion h
    cases hfv : firstArgValue s.wrapped with
    | none => rw [hfv] at h; exact Except.noConfusion h
    | some pv =>
        cases pv with
        | num lit => rw [hfv] at h; exact Except.noConfusion h
        | str v0 =>
            simp only [hfv] at h
            split at h
            · rename_i hcond
              simp only [Bool.and_eq_true, beq_iff_eq] at hcond
              rw [hcond.1]
            · simp only [Except.ok.injEq] at h
              exact absurd h.symm hne

/-- An already-switched (non-nominal, still unfrozen) scale-factor wrapper. -/
def sfSwitched : ScaleFactorWithSystOp :=
  ⟨.fresh, .fresh, .CallMethod "elSF.get"
    [.GetColumn "Float_t" "pt", .GetColumn "Float_t" "eta", .ExtVar "Systematic" "Up"]
    "double", "elIDSF", ["elIDSFup", "elIDSFdown"]⟩

theorem claim_changeVariation_frame_witness :
    (sfSwitched.changeVariation "elIDSFdown").toOption.getD sfSwitched = sfSwitched :=
  claim_changeVariation_frame.1 sfSwitched "elIDSFdown"
    ((sfSwitched.changeVariation "elIDSFdown").toOption.getD sfSwitched) rfl (by decide)
